import Mathlib

/-!
Verification of the caching / invalidation layer of the `notion_client`
library (`src/notion_client/client.py`).

The embedding models:
* cache keys and resource ids as lists of characters (Python `str`),
* the four TTL caches (`_page_cache`, `_blocks_cache`, `_db_cache`,
  `_data_source_cache`) as association lists carrying insertion timestamps,
* the cache accessor (`_get_from_cache`, `_store_in_cache`), the
  invalidation router (`_invalidate_cache`), `clear_cache`,
  `get_cache_stats`,
* the error taxonomy of `exceptions.py` together with the status-code
  mapping of `_handle_error` and the outcome handling of `_request`,
* the per-resource read/write operations (`get_page`, `update_page`,
  `get_database`, `update_database`, `get_data_source`,
  `update_data_source`, `get_block_children`, `append_block_children`,
  `update_block`, `delete_block`) as a step function on client state.

Time is an explicit `Nat` parameter (`now`); every operation happens at a
single instant.  The remote side is an oracle (`RemoteOutcome`) supplied
per call.
-/

set_option autoImplicit false

namespace Notion

/-- Python strings (resource ids, cache keys) are modelled as lists of
characters. -/
abbrev Str := List Char

/-- The decimal digit character for `d` (used by `natRepr`, the model of
Python `str(int)` inside an f-string). -/
def digitChar (d : Nat) : Char := Char.ofNat (48 + d)

/-- Fuel-driven helper computing the decimal representation of a natural
number, most significant digit first.  `fuel > n` suffices. -/
def natReprAux : Nat → Nat → Str
  | 0, _ => []
  | fuel + 1, n =>
    if n < 10 then [digitChar n]
    else natReprAux fuel (n / 10) ++ [digitChar (n % 10)]

/-- Decimal representation of a natural number, modelling Python's
`f"{page_size}"` for a non-negative int. -/
def natRepr (n : Nat) : Str := natReprAux (n + 1) n

/-- Python `s.startswith(p)` on our character-list strings. -/
def startsWith : Str → Str → Bool
  | [], _ => true
  | _ :: _, [] => false
  | a :: p, b :: s => decide (a = b) && startsWith p s

/-- The key predicate of `_invalidate_cache`'s blocks-cache scan:
`k == resource_id or k.startswith(f"{resource_id}:")`. -/
def matchesKey (resourceId k : Str) : Bool :=
  decide (k = resourceId) || startsWith (resourceId ++ [':']) k

/-- One cached value together with its insertion time
(`cachetools.TTLCache` stores an expiry timestamp per entry). -/
structure CacheEntry (V : Type) where
  value : V
  insertedAt : Nat
deriving DecidableEq, Repr

/-- Modelled from the spec: the repository's caches are instances of the
external `cachetools.TTLCache` (not part of this repository's sources).
Per spec §2/§4.1 each cache is a TTL- and capacity-bounded key-value map:
entries older than `ttl` are treated as absent (lazy expiry), and when the
capacity is exceeded the oldest entry is evicted.  `entries` is kept in
insertion order, oldest first. -/
structure TTLCache (V : Type) where
  ttl : Nat
  maxSize : Nat
  entries : List (Str × CacheEntry V)
deriving DecidableEq

namespace TTLCache

variable {V : Type}

/-- First entry stored under `k` (Python dict keys are unique, so this is
the entry for `k` when present). -/
def findEntry (k : Str) : List (Str × CacheEntry V) → Option (CacheEntry V)
  | [] => none
  | (k', e) :: rest => if k' = k then some e else findEntry k rest

/-- `cache[k]` guarded by the TTL check: an entry is live at `now` iff
`now < insertedAt + ttl`. -/
def getAt (c : TTLCache V) (k : Str) (now : Nat) : Option V :=
  match findEntry k c.entries with
  | some e => if now < e.insertedAt + c.ttl then some e.value else none
  | none => none

/-- Python `k in cache` for a `TTLCache` (live entries only). -/
def containsAt (c : TTLCache V) (k : Str) (now : Nat) : Bool :=
  (c.getAt k now).isSome

/-- Python `del cache[k]`: remove the entry stored under `k`. -/
def eraseKey (c : TTLCache V) (k : Str) : TTLCache V :=
  { c with entries := c.entries.filter (fun p => !decide (p.1 = k)) }

/-- Python `list(cache.keys())` for a `TTLCache`: live keys only. -/
def liveKeysAt (c : TTLCache V) (now : Nat) : List Str :=
  (c.entries.filter (fun p => decide (now < p.2.insertedAt + c.ttl))).map
    (fun p => p.1)

/-- Python `cache[k] = v` on a `TTLCache`: replace any entry under `k`,
then append the fresh entry; if the cache is at capacity the oldest
entries are evicted first. -/
def putAt (c : TTLCache V) (k : Str) (v : V) (now : Nat) : TTLCache V :=
  let without := c.entries.filter (fun p => !decide (p.1 = k))
  let room :=
    if without.length + 1 ≤ c.maxSize then without
    else without.drop (without.length + 1 - c.maxSize)
  { c with entries := room ++ [(k, ⟨v, now⟩)] }

/-- Python `cache.clear()`. -/
def clear (c : TTLCache V) : TTLCache V := { c with entries := [] }

end TTLCache

/-- The `_cache_stats` dictionary: `{"hits": 0, "misses": 0,
"invalidations": 0}`. -/
structure CacheStats where
  hits : Nat
  misses : Nat
  invalidations : Nat
deriving DecidableEq, Repr

/-- The mutable cache state owned by one client instance: the four caches
plus the stats counters.  (When caching is disabled the Python attributes
are `None` and never touched; here the fields are simply never read or
written in that case.) -/
structure ClientState (V : Type) where
  pageCache : TTLCache V
  blocksCache : TTLCache V
  dbCache : TTLCache V
  dataSourceCache : TTLCache V
  stats : CacheStats
deriving DecidableEq

/-- The caching-relevant part of `ClientConfig`. -/
structure Config where
  enableCaching : Bool
  cacheTtlPages : Nat
  cacheTtlBlocks : Nat
  cacheTtlDatabases : Nat
  cacheTtlDataSources : Nat
  cacheMaxSize : Nat
deriving DecidableEq

/-- Which of the four caches an accessor call addresses (the Python code
passes the cache object itself). -/
inductive CacheKind where
  | pages
  | blocks
  | databases
  | dataSources
deriving DecidableEq, Repr

variable {V : Type}

/-- Select a cache by kind. -/
def ClientState.cacheOf (st : ClientState V) : CacheKind → TTLCache V
  | .pages => st.pageCache
  | .blocks => st.blocksCache
  | .databases => st.dbCache
  | .dataSources => st.dataSourceCache

/-- Replace one cache by kind. -/
def ClientState.setCache (st : ClientState V) : CacheKind → TTLCache V → ClientState V
  | .pages, c => { st with pageCache := c }
  | .blocks, c => { st with blocksCache := c }
  | .databases, c => { st with dbCache := c }
  | .dataSources, c => { st with dataSourceCache := c }

/-- `_setup_cache`: four fresh caches with the configured TTLs and the
shared max size, and zeroed stats. -/
def setup_cache (V : Type) (cfg : Config) : ClientState V :=
  { pageCache := ⟨cfg.cacheTtlPages, cfg.cacheMaxSize, []⟩
    blocksCache := ⟨cfg.cacheTtlBlocks, cfg.cacheMaxSize, []⟩
    dbCache := ⟨cfg.cacheTtlDatabases, cfg.cacheMaxSize, []⟩
    dataSourceCache := ⟨cfg.cacheTtlDataSources, cfg.cacheMaxSize, []⟩
    stats := ⟨0, 0, 0⟩ }

/-- `_get_from_cache`: with caching disabled, return `None` with no side
effect (in Python this is the `not enable_caching or cache is None`
guard; `ClientConfig.__post_init__` forces `enable_caching = False`
whenever `cachetools` is unavailable, so `enable_caching = True` implies
the caches exist).  Otherwise a live entry is a hit (`hits += 1`,
return the value), anything else a miss (`misses += 1`, return `None`). -/
def get_from_cache (cfg : Config) (st : ClientState V) (kind : CacheKind)
    (key : Str) (now : Nat) : Option V × ClientState V :=
  if cfg.enableCaching then
    match (st.cacheOf kind).getAt key now with
    | some v => (some v, { st with stats := { st.stats with hits := st.stats.hits + 1 } })
    | none => (none, { st with stats := { st.stats with misses := st.stats.misses + 1 } })
  else
    (none, st)

/-- `_store_in_cache`: no-op when caching is disabled, otherwise an
unconditional overwrite of `cache[key]`. -/
def store_in_cache (cfg : Config) (st : ClientState V) (kind : CacheKind)
    (key : Str) (v : V) (now : Nat) : ClientState V :=
  if cfg.enableCaching then
    st.setCache kind ((st.cacheOf kind).putAt key v now)
  else
    st

/-- The closed set of string constants the source ever passes or compares
as `resource_type` in `_invalidate_cache`.  The router's branches
recognize `"page"`, `"block"`, `"database"`, `"data_source"` and `"all"`;
the call sites in `update_data_source` additionally pass the strings
`"data_sources"` and `"databases"`, which are distinct from every
recognized constant (string equality on the closed set is equality of
constructors). -/
inductive ResourceType where
  | page
  | block
  | database
  | data_source
  | all
  | data_sources
  | databases
deriving DecidableEq, Repr

/-- The condition of `_invalidate_cache`'s page-cache branch:
`resource_type in ["page", "all"] and resource_id in self._page_cache`. -/
def pageHitOf (st : ClientState V) (resourceId : Str) (resourceType : ResourceType)
    (now : Nat) : Bool :=
  (decide (resourceType = ResourceType.page) || decide (resourceType = ResourceType.all))
    && st.pageCache.containsAt resourceId now

/-- `keys_to_delete` of `_invalidate_cache`'s blocks-cache branch (empty
when the branch is not taken). -/
def blockKeysToDelete (st : ClientState V) (resourceId : Str)
    (resourceType : ResourceType) (now : Nat) : List Str :=
  if decide (resourceType = ResourceType.block) || decide (resourceType = ResourceType.all)
  then (st.blocksCache.liveKeysAt now).filter (matchesKey resourceId)
  else []

/-- The condition of `_invalidate_cache`'s database-cache branch. -/
def dbHitOf (st : ClientState V) (resourceId : Str) (resourceType : ResourceType)
    (now : Nat) : Bool :=
  (decide (resourceType = ResourceType.database) || decide (resourceType = ResourceType.all))
    && st.dbCache.containsAt resourceId now

/-- The condition of `_invalidate_cache`'s data-source-cache branch. -/
def dsHitOf (st : ClientState V) (resourceId : Str) (resourceType : ResourceType)
    (now : Nat) : Bool :=
  (decide (resourceType = ResourceType.data_source) || decide (resourceType = ResourceType.all))
    && st.dataSourceCache.containsAt resourceId now

/-- `_invalidate_cache(resource_id, resource_type)`: with caching enabled,
delete `resource_id` from the page cache when `resource_type` is
`"page"`/`"all"` and the key is live; scan the blocks cache's live keys
and delete every key equal to `resource_id` or starting with
`resource_id + ":"` when `resource_type` is `"block"`/`"all"`; likewise
delete the plain key from the database cache (`"database"`/`"all"`) and
the data-source cache (`"data_source"`/`"all"`); finally increment
`invalidations` once iff at least one entry was deleted. -/
def invalidate_cache (cfg : Config) (st : ClientState V) (resourceId : Str)
    (resourceType : ResourceType) (now : Nat) : ClientState V :=
  if cfg.enableCaching then
    let pc :=
      if pageHitOf st resourceId resourceType now
      then st.pageCache.eraseKey resourceId else st.pageCache
    let bc := (blockKeysToDelete st resourceId resourceType now).foldl
      TTLCache.eraseKey st.blocksCache
    let dbc :=
      if dbHitOf st resourceId resourceType now
      then st.dbCache.eraseKey resourceId else st.dbCache
    let dsc :=
      if dsHitOf st resourceId resourceType now
      then st.dataSourceCache.eraseKey resourceId else st.dataSourceCache
    let invalidated := pageHitOf st resourceId resourceType now
      || !(blockKeysToDelete st resourceId resourceType now).isEmpty
      || dbHitOf st resourceId resourceType now
      || dsHitOf st resourceId resourceType now
    { pageCache := pc, blocksCache := bc, dbCache := dbc, dataSourceCache := dsc
      stats :=
        if invalidated then
          { st.stats with invalidations := st.stats.invalidations + 1 }
        else st.stats }
  else st

/-- The closed set of `cache_type` arguments of `clear_cache`
(`None` defaults to clearing everything). -/
inductive ClearType where
  | pages
  | blocks
  | databases
  | data_sources
  | all
  | noneArg
deriving DecidableEq, Repr

/-- `clear_cache(cache_type)`. -/
def clear_cache (cfg : Config) (st : ClientState V) (ct : ClearType) : ClientState V :=
  if cfg.enableCaching then
    let pc := if ct = ClearType.pages ∨ ct = ClearType.all ∨ ct = ClearType.noneArg
      then st.pageCache.clear else st.pageCache
    let bc := if ct = ClearType.blocks ∨ ct = ClearType.all ∨ ct = ClearType.noneArg
      then st.blocksCache.clear else st.blocksCache
    let dbc := if ct = ClearType.databases ∨ ct = ClearType.all ∨ ct = ClearType.noneArg
      then st.dbCache.clear else st.dbCache
    let dsc := if ct = ClearType.data_sources ∨ ct = ClearType.all ∨ ct = ClearType.noneArg
      then st.dataSourceCache.clear else st.dataSourceCache
    { pageCache := pc, blocksCache := bc, dbCache := dbc, dataSourceCache := dsc
      stats := st.stats }
  else st

/-- The dictionary returned by `get_cache_stats`: `{"enabled": False}`
when caching is disabled, otherwise the full stats record.  The hit rate
is modelled as an exact rational (`hits / total * 100`); Python's
`round(-, 2)` on a float is not modelled. -/
inductive CacheStatsView where
  | disabled
  | enabled (hits misses invalidations totalRequests : Nat) (hitRatePercent : ℚ)
      (pages blocks databases dataSources : Nat)
deriving DecidableEq

/-- `get_cache_stats()`. -/
def get_cache_stats (cfg : Config) (st : ClientState V) : CacheStatsView :=
  if cfg.enableCaching then
    let total := st.stats.hits + st.stats.misses
    CacheStatsView.enabled st.stats.hits st.stats.misses st.stats.invalidations total
      (if 0 < total then (st.stats.hits : ℚ) * 100 / (total : ℚ) else 0)
      st.pageCache.entries.length st.blocksCache.entries.length
      st.dbCache.entries.length st.dataSourceCache.entries.length
  else CacheStatsView.disabled

/-! ### Error taxonomy and the request executor -/

/-- The exception classes of `exceptions.py`: `NotionAPIError` (base /
catch-all) and its five subclasses.  No timeout- or connection-specific
class exists. -/
inductive ErrorKind where
  | apiError
  | authentication
  | validation
  | rateLimit
  | notFound
  | conflict
deriving DecidableEq, Repr

/-- A raised exception: its class and the `status_code` attribute it was
constructed with (`none` when `_request` raises without a status, as for
timeouts and connection errors). -/
structure RaisedError where
  kind : ErrorKind
  status : Option Nat
deriving DecidableEq, Repr

/-- Result of one client operation: the returned body or the raised
exception. -/
inductive Result (V : Type) where
  | ok (v : V)
  | error (e : RaisedError)
deriving DecidableEq, Repr

/-- What the transport produced for one call: a response with a status
code and parsed body, or a transport-level failure
(`requests.exceptions.Timeout`, `requests.exceptions.ConnectionError`,
or any other unexpected exception). -/
inductive RemoteOutcome (V : Type) where
  | response (status : Nat) (body : V)
  | timeout
  | connectionError
  | unexpected
deriving DecidableEq, Repr

/-- `_handle_error`'s status-code dispatch table (`error_classes`): the
exception class raised for a given status. -/
def handle_error (status : Nat) : ErrorKind :=
  if status = 401 then ErrorKind.authentication
  else if status = 400 then ErrorKind.validation
  else if status = 429 then ErrorKind.rateLimit
  else if status = 404 then ErrorKind.notFound
  else if status = 409 then ErrorKind.conflict
  else ErrorKind.apiError

/-- `_request`: statuses `>= 400` go through `_handle_error` (which
raises with the status attached); any other status returns the body;
`Timeout`, `ConnectionError` and unexpected exceptions are wrapped into
plain `NotionAPIError` (no status code). -/
def run_request : RemoteOutcome V → Result V
  | .response status body =>
    if 400 ≤ status then Result.error ⟨handle_error status, some status⟩
    else Result.ok body
  | .timeout => Result.error ⟨ErrorKind.apiError, none⟩
  | .connectionError => Result.error ⟨ErrorKind.apiError, none⟩
  | .unexpected => Result.error ⟨ErrorKind.apiError, none⟩

/-! ### Resource operations

Each operation returns the result, the state after the call, and a flag
recording whether a remote call was performed.  The four cached read
methods of the source have textually identical bodies (cache lookup, on
miss a remote call followed on success by a cache store under the same
key); they are modelled as instances of `read_through`.  The five write
methods that invalidate with scope `"all"` likewise share
`write_through_all`. -/

/-- The read-through pattern shared by `get_page`, `get_database`,
`get_data_source` and `get_block_children`. -/
def read_through (cfg : Config) (st : ClientState V) (kind : CacheKind) (key : Str)
    (remote : RemoteOutcome V) (now : Nat) : Result V × ClientState V × Bool :=
  match get_from_cache cfg st kind key now with
  | (some v, st') => (Result.ok v, st', false)
  | (none, st') =>
    match run_request remote with
    | Result.ok v => (Result.ok v, store_in_cache cfg st' kind key v now, true)
    | Result.error e => (Result.error e, st', true)

/-- The write pattern shared by `update_page`, `update_database`,
`update_block`, `delete_block` and `append_block_children`: remote call
first; on success invalidate the written id with scope `"all"`. -/
def write_through_all (cfg : Config) (st : ClientState V) (id : Str)
    (remote : RemoteOutcome V) (now : Nat) : Result V × ClientState V × Bool :=
  match run_request remote with
  | Result.ok v => (Result.ok v, invalidate_cache cfg st id ResourceType.all now, true)
  | Result.error e => (Result.error e, st, true)

/-- `get_page`: cache lookup in the page cache keyed by the page id; on
miss a remote call followed (on success) by a cache store. -/
def get_page (cfg : Config) (st : ClientState V) (pageId : Str)
    (remote : RemoteOutcome V) (now : Nat) : Result V × ClientState V × Bool :=
  read_through cfg st CacheKind.pages pageId remote now

/-- `update_page`: remote call; on success invalidate the page id with
scope `"all"`. -/
def update_page (cfg : Config) (st : ClientState V) (pageId : Str)
    (remote : RemoteOutcome V) (now : Nat) : Result V × ClientState V × Bool :=
  write_through_all cfg st pageId remote now

/-- `get_database`: read-through on the database cache. -/
def get_database (cfg : Config) (st : ClientState V) (databaseId : Str)
    (remote : RemoteOutcome V) (now : Nat) : Result V × ClientState V × Bool :=
  read_through cfg st CacheKind.databases databaseId remote now

/-- `update_database`: remote call, then invalidation with scope `"all"`. -/
def update_database (cfg : Config) (st : ClientState V) (databaseId : Str)
    (remote : RemoteOutcome V) (now : Nat) : Result V × ClientState V × Bool :=
  write_through_all cfg st databaseId remote now

/-- `get_data_source`: read-through on the data-source cache. -/
def get_data_source (cfg : Config) (st : ClientState V) (dataSourceId : Str)
    (remote : RemoteOutcome V) (now : Nat) : Result V × ClientState V × Bool :=
  read_through cfg st CacheKind.dataSources dataSourceId remote now

/-- `update_data_source`: remote call; on success the source calls
`_invalidate_cache(data_source_id, "data_sources")` — note the plural
string, which is none of the router's recognized constants — and, when a
new parent with a `database_id` was passed,
`_invalidate_cache(parent["database_id"], "databases")` (again plural). -/
def update_data_source (cfg : Config) (st : ClientState V) (dataSourceId : Str)
    (parentDatabaseId : Option Str) (remote : RemoteOutcome V) (now : Nat) :
    Result V × ClientState V × Bool :=
  match run_request remote with
  | Result.ok v =>
    let st1 := invalidate_cache cfg st dataSourceId ResourceType.data_sources now
    let st2 :=
      match parentDatabaseId with
      | some dbId => invalidate_cache cfg st1 dbId ResourceType.databases now
      | none => st1
    (Result.ok v, st2, true)
  | Result.error e => (Result.error e, st, true)

/-- The composite blocks-cache key of `get_block_children`:
`f"{block_id}:{page_size}"` — built from the original, uncapped
`page_size` argument. -/
def blockChildrenKey (blockId : Str) (pageSize : Nat) : Str :=
  blockId ++ ':' :: natRepr pageSize

/-- The `page_size` query parameter actually sent by `get_block_children`:
`min(page_size, 100)`. -/
def blockChildrenRequestPageSize (pageSize : Nat) : Nat := min pageSize 100

/-- `get_block_children`: read-through on the blocks cache under the
composite key built from the uncapped `page_size`. -/
def get_block_children (cfg : Config) (st : ClientState V) (blockId : Str)
    (pageSize : Nat) (remote : RemoteOutcome V) (now : Nat) :
    Result V × ClientState V × Bool :=
  read_through cfg st CacheKind.blocks (blockChildrenKey blockId pageSize) remote now

/-- `append_block_children`: remote call, then invalidation with scope
`"all"`. -/
def append_block_children (cfg : Config) (st : ClientState V) (blockId : Str)
    (remote : RemoteOutcome V) (now : Nat) : Result V × ClientState V × Bool :=
  write_through_all cfg st blockId remote now

/-- `update_block`: remote call, then invalidation with scope `"all"`. -/
def update_block (cfg : Config) (st : ClientState V) (blockId : Str)
    (remote : RemoteOutcome V) (now : Nat) : Result V × ClientState V × Bool :=
  write_through_all cfg st blockId remote now

/-- `delete_block`: remote call, then invalidation with scope `"all"`. -/
def delete_block (cfg : Config) (st : ClientState V) (blockId : Str)
    (remote : RemoteOutcome V) (now : Nat) : Result V × ClientState V × Bool :=
  write_through_all cfg st blockId remote now

/-! ### Operation sequences -/

/-- One client call together with the data it depends on: the remote
oracle's outcome for the call and the instant at which it happens. -/
inductive Op (V : Type) where
  | getPage (id : Str) (remote : RemoteOutcome V) (now : Nat)
  | getDatabase (id : Str) (remote : RemoteOutcome V) (now : Nat)
  | getDataSource (id : Str) (remote : RemoteOutcome V) (now : Nat)
  | getBlockChildren (id : Str) (pageSize : Nat) (remote : RemoteOutcome V) (now : Nat)
  | updatePage (id : Str) (remote : RemoteOutcome V) (now : Nat)
  | updateDatabase (id : Str) (remote : RemoteOutcome V) (now : Nat)
  | updateDataSource (id : Str) (parentDatabaseId : Option Str)
      (remote : RemoteOutcome V) (now : Nat)
  | updateBlock (id : Str) (remote : RemoteOutcome V) (now : Nat)
  | deleteBlock (id : Str) (remote : RemoteOutcome V) (now : Nat)
  | appendBlockChildren (id : Str) (remote : RemoteOutcome V) (now : Nat)
deriving DecidableEq

/-- Dispatch one operation. -/
def step (cfg : Config) (st : ClientState V) : Op V → Result V × ClientState V × Bool
  | .getPage id remote now => get_page cfg st id remote now
  | .getDatabase id remote now => get_database cfg st id remote now
  | .getDataSource id remote now => get_data_source cfg st id remote now
  | .getBlockChildren id pageSize remote now => get_block_children cfg st id pageSize remote now
  | .updatePage id remote now => update_page cfg st id remote now
  | .updateDatabase id remote now => update_database cfg st id remote now
  | .updateDataSource id parentDb remote now => update_data_source cfg st id parentDb remote now
  | .updateBlock id remote now => update_block cfg st id remote now
  | .deleteBlock id remote now => delete_block cfg st id remote now
  | .appendBlockChildren id remote now => append_block_children cfg st id remote now

/-- Run a sequence of operations, threading the state. -/
def runOps (cfg : Config) (st : ClientState V) : List (Op V) → ClientState V
  | [] => st
  | op :: ops => runOps cfg (step cfg st op).2.1 ops

/-- The read operations are exactly those that perform one
`_get_from_cache` call; writes perform none. -/
def isRead : Op V → Bool
  | .getPage _ _ _ => true
  | .getDatabase _ _ _ => true
  | .getDataSource _ _ _ => true
  | .getBlockChildren _ _ _ _ => true
  | _ => false

/-- Number of `_get_from_cache` calls a sequence performs (one per read
operation). -/
def countReads (ops : List (Op V)) : Nat := (ops.filter isRead).length

/-- The cache kind and key a read operation looks up, `none` for writes. -/
def readTarget : Op V → Option (CacheKind × Str)
  | .getPage id _ _ => some (CacheKind.pages, id)
  | .getDatabase id _ _ => some (CacheKind.databases, id)
  | .getDataSource id _ _ => some (CacheKind.dataSources, id)
  | .getBlockChildren id pageSize _ _ => some (CacheKind.blocks, blockChildrenKey id pageSize)
  | _ => none

/-- The instant at which an operation happens. -/
def opNow : Op V → Nat
  | .getPage _ _ now => now
  | .getDatabase _ _ now => now
  | .getDataSource _ _ now => now
  | .getBlockChildren _ _ _ now => now
  | .updatePage _ _ now => now
  | .updateDatabase _ _ now => now
  | .updateDataSource _ _ _ now => now
  | .updateBlock _ _ now => now
  | .deleteBlock _ _ now => now
  | .appendBlockChildren _ _ now => now

/-! ### Concrete fixtures used by witnesses and counterexamples -/

/-- Evaluate a digit string back to the number (left fold, base 10);
proof-side inverse of `natRepr`. -/
def decodeDigits (cs : Str) : Nat :=
  cs.foldl (fun a c => 10 * a + (c.toNat - 48)) 0

/-- The source's default caching configuration
(`enable_caching=True`, TTLs 300/600/1800/1800, `cache_max_size=100`). -/
def cfgN : Config := ⟨true, 300, 600, 1800, 1800, 100⟩

/-- The default configuration with caching disabled. -/
def cfgDis : Config := ⟨false, 300, 600, 1800, 1800, 100⟩

/-- A freshly constructed client state under `cfgN`. -/
def st0N : ClientState Nat := setup_cache Nat cfgN

/-- A freshly constructed client state under `cfgDis`. -/
def st0Dis : ClientState Nat := setup_cache Nat cfgDis

/-- A state whose page cache holds the id `"p"` and whose blocks cache
holds the composite key `"p:50"`, both inserted at time 0. -/
def stAlias : ClientState Nat :=
  { pageCache := ⟨300, 100, [(['p'], ⟨10, 0⟩)]⟩
    blocksCache := ⟨600, 100, [(['p', ':', '5', '0'], ⟨11, 0⟩)]⟩
    dbCache := ⟨1800, 100, []⟩
    dataSourceCache := ⟨1800, 100, []⟩
    stats := ⟨0, 0, 0⟩ }

/-- A blocks-cache state holding the keys `"b:50:50"` and `"b:50"`
(that is, `X ++ ":50"` and `Y ++ ":50"` for `X = "b:50"`, `Y = "b"`),
both inserted at time 0. -/
def stComposite : ClientState Nat :=
  { pageCache := ⟨300, 100, []⟩
    blocksCache := ⟨600, 100,
      [(['b', ':', '5', '0', ':', '5', '0'], ⟨1, 0⟩), (['b', ':', '5', '0'], ⟨2, 0⟩)]⟩
    dbCache := ⟨1800, 100, []⟩
    dataSourceCache := ⟨1800, 100, []⟩
    stats := ⟨0, 0, 0⟩ }

/-! ### Lemmas about strings and decimal representations -/

theorem startsWith_iff : ∀ (p s : Str), startsWith p s = true ↔ ∃ t, s = p ++ t
  | [], s => by simp [startsWith]
  | a :: p, [] => by
    simp only [startsWith, List.cons_append]
    constructor
    · intro h; cases h
    · rintro ⟨t, ht⟩; cases ht
  | a :: p, b :: s => by
    simp only [startsWith, Bool.and_eq_true, decide_eq_true_eq, List.cons_append,
      List.cons.injEq, startsWith_iff p s]
    constructor
    · rintro ⟨rfl, t, rfl⟩; exact ⟨t, rfl, rfl⟩
    · rintro ⟨t, rfl, rfl⟩; exact ⟨rfl, t, rfl⟩

/-- Anatomy of an equality between two colon-separated concatenations:
the left parts agree, or one extends the other across a colon. -/
theorem append_colon_cases {X Y u v : Str} (h : X ++ ':' :: u = Y ++ ':' :: v) :
    X = Y ∨ (∃ w, Y = X ++ ':' :: w) ∨ (∃ w, X = Y ++ ':' :: w) := by
  rcases List.append_eq_append_iff.mp h with ⟨a, ha, hu⟩ | ⟨c, hc, hv⟩
  · -- ha : Y = X ++ a, hu : ':' :: u = a ++ ':' :: v
    cases a with
    | nil => exact Or.inl (by simpa using ha.symm)
    | cons c0 a' =>
      have hc0 : c0 = ':' := by
        simp only [List.cons_append, List.cons.injEq] at hu
        exact hu.1.symm
      subst hc0
      exact Or.inr (Or.inl ⟨a', ha⟩)
  · -- hc : X = Y ++ c, hv : ':' :: v = c ++ ':' :: u
    cases c with
    | nil => exact Or.inl (by simpa using hc)
    | cons c0 c' =>
      have hc0 : c0 = ':' := by
        simp only [List.cons_append, List.cons.injEq] at hv
        exact hv.1.symm
      subst hc0
      exact Or.inr (Or.inr ⟨c', hc⟩)

/-- A key of the shape `resource_id ++ ":" ++ suffix` always matches. -/
theorem matchesKey_self_colon (X u : Str) : matchesKey X (X ++ ':' :: u) = true := by
  have : startsWith (X ++ [':']) (X ++ ':' :: u) = true :=
    (startsWith_iff _ _).mpr ⟨u, by simp⟩
  simp [matchesKey, this]

/-- If `Y` is unrelated to `X` (distinct, and neither extends the other
across a colon), then a `Y`-rooted composite key does not match `X`. -/
theorem matchesKey_colon_false {X Y : Str} (u : Str)
    (hXY : X ≠ Y)
    (hYX : ∀ s, Y ≠ X ++ ':' :: s)
    (hXYc : ∀ s, X ≠ Y ++ ':' :: s) :
    matchesKey X (Y ++ ':' :: u) = false := by
  simp only [matchesKey, Bool.or_eq_false_iff, decide_eq_false_iff_not]
  refine ⟨fun h => hXYc u h.symm, ?_⟩
  rw [Bool.eq_false_iff]
  intro h
  rcases (startsWith_iff _ _).mp h with ⟨t, ht⟩
  have ht' : Y ++ ':' :: u = X ++ ':' :: t := by simpa using ht
  rcases append_colon_cases ht' with h1 | ⟨w, hw⟩ | ⟨w, hw⟩
  · exact hXY h1.symm
  · exact hXYc w hw
  · exact hYX w hw

theorem toNat_digitChar {d : Nat} (hd : d < 10) : (digitChar d).toNat = 48 + d := by
  interval_cases d <;> decide

theorem decodeDigits_append_digit (l : Str) (c : Char) :
    decodeDigits (l ++ [c]) = 10 * decodeDigits l + (c.toNat - 48) := by
  simp [decodeDigits, List.foldl_append]

theorem decode_natReprAux : ∀ (fuel n : Nat), n < fuel →
    decodeDigits (natReprAux fuel n) = n := by
  intro fuel
  induction fuel with
  | zero => intro n hn; omega
  | succ fuel ih =>
    intro n hn
    rw [natReprAux]
    by_cases h : n < 10
    · simp only [if_pos h]
      simp [decodeDigits, toNat_digitChar h]
    · simp only [if_neg h]
      have hdiv : n / 10 < n := Nat.div_lt_self (by omega) (by omega)
      rw [decodeDigits_append_digit, ih (n / 10) (by omega),
        toNat_digitChar (Nat.mod_lt n (by omega))]
      omega

theorem natRepr_injective {m n : Nat} (h : natRepr m = natRepr n) : m = n := by
  have hm := decode_natReprAux (m + 1) m (Nat.lt_succ_self m)
  have hn := decode_natReprAux (n + 1) n (Nat.lt_succ_self n)
  rw [natRepr] at h
  rw [← hm, ← hn, h, natRepr]

/-- Distinct page sizes produce distinct composite blocks-cache keys. -/
theorem blockChildrenKey_inj {b : Str} {p1 p2 : Nat}
    (h : blockChildrenKey b p1 = blockChildrenKey b p2) : p1 = p2 := by
  unfold blockChildrenKey at h
  have h2 := (List.append_right_inj b).mp h
  have h3 : natRepr p1 = natRepr p2 := by
    injection h2
  exact natRepr_injective h3

/-! ### Lemmas about the TTL cache structure -/

namespace TTLCache

theorem findEntry_eq_none_iff {k : Str} {l : List (Str × CacheEntry V)} :
    findEntry k l = none ↔ ∀ p ∈ l, p.1 ≠ k := by
  induction l with
  | nil => simp [findEntry]
  | cons hd rest ih =>
    obtain ⟨k', e⟩ := hd
    by_cases h : k' = k
    · subst h
      rw [findEntry, if_pos rfl]
      constructor
      · intro h'; cases h'
      · intro hall
        exact ((hall (k', e) (List.mem_cons_self _ _)) rfl).elim
    · rw [findEntry, if_neg h]
      rw [ih]
      constructor
      · rintro hr p hp
        rcases List.mem_cons.mp hp with rfl | hp'
        · exact h
        · exact hr p hp'
      · intro hall p hp
        exact hall p (List.mem_cons_of_mem _ hp)

theorem findEntry_filter_self (l : List (Str × CacheEntry V)) (k : Str) :
    findEntry k (l.filter (fun p => !decide (p.1 = k))) = none := by
  rw [findEntry_eq_none_iff]
  intro p hp
  have := (List.mem_filter.mp hp).2
  simpa using this

theorem findEntry_none_of_subset {k : Str} {l l' : List (Str × CacheEntry V)}
    (hsub : ∀ p ∈ l', p ∈ l) (h : findEntry k l = none) : findEntry k l' = none := by
  rw [findEntry_eq_none_iff] at h ⊢
  exact fun p hp => h p (hsub p hp)

theorem findEntry_append_left_none {k : Str} :
    ∀ {l1 l2 : List (Str × CacheEntry V)}, findEntry k l1 = none →
      findEntry k (l1 ++ l2) = findEntry k l2
  | [], _, _ => rfl
  | (k', e) :: rest, l2, h => by
    have hk : k' ≠ k := by
      rw [findEntry_eq_none_iff] at h
      exact h (k', e) (List.mem_cons_self _ _)
    have hrest : findEntry k rest = none := by
      rw [findEntry_eq_none_iff] at h ⊢
      exact fun p hp => h p (List.mem_cons_of_mem _ hp)
    simp only [List.cons_append, findEntry, if_neg hk]
    exact findEntry_append_left_none hrest

theorem ttl_putAt (c : TTLCache V) (k : Str) (v : V) (t : Nat) :
    (c.putAt k v t).ttl = c.ttl := rfl

theorem ttl_eraseKey (c : TTLCache V) (k : Str) : (c.eraseKey k).ttl = c.ttl := rfl

/-- After a `put`, the stored key maps to the fresh value until the TTL
elapses, and to nothing afterwards. -/
theorem getAt_putAt_self (c : TTLCache V) (k : Str) (v : V) (t now : Nat) :
    (c.putAt k v t).getAt k now = if now < t + c.ttl then some v else none := by
  have hroom : findEntry k
      (if (c.entries.filter (fun p => !decide (p.1 = k))).length + 1 ≤ c.maxSize
       then c.entries.filter (fun p => !decide (p.1 = k))
       else (c.entries.filter (fun p => !decide (p.1 = k))).drop
         ((c.entries.filter (fun p => !decide (p.1 = k))).length + 1 - c.maxSize)) = none := by
    split
    · exact findEntry_filter_self c.entries k
    · exact findEntry_none_of_subset (fun p hp => List.drop_subset _ _ hp)
        (findEntry_filter_self c.entries k)
  unfold putAt getAt
  simp only []
  rw [findEntry_append_left_none hroom]
  simp [findEntry]

theorem getAt_eraseKey_self (c : TTLCache V) (k : Str) (now : Nat) :
    (c.eraseKey k).getAt k now = none := by
  unfold eraseKey getAt
  rw [findEntry_filter_self]

theorem findEntry_filter_ne {k k' : Str} (h : k ≠ k') :
    ∀ (l : List (Str × CacheEntry V)),
      findEntry k (l.filter (fun p => !decide (p.1 = k'))) = findEntry k l
  | [] => rfl
  | (k0, e) :: rest => by
    rw [List.filter_cons]
    by_cases h1 : k0 = k'
    · rw [if_neg (by simp [h1])]
      have h0 : k0 ≠ k := by
        intro hk
        exact h (hk ▸ h1)
      rw [findEntry, if_neg h0]
      exact findEntry_filter_ne h rest
    · rw [if_pos (by simp [h1])]
      by_cases h0 : k0 = k
      · subst h0
        rw [findEntry, if_pos rfl, findEntry, if_pos rfl]
      · rw [findEntry, if_neg h0, findEntry, if_neg h0]
        exact findEntry_filter_ne h rest

theorem getAt_eraseKey_ne {k k' : Str} (h : k ≠ k') (c : TTLCache V) (now : Nat) :
    (c.eraseKey k').getAt k now = c.getAt k now := by
  unfold eraseKey getAt
  rw [findEntry_filter_ne h]

theorem getAt_eraseKey_none {c : TTLCache V} {k : Str} {now : Nat} (k' : Str)
    (h : c.getAt k now = none) : (c.eraseKey k').getAt k now = none := by
  by_cases hk : k = k'
  · subst hk; exact getAt_eraseKey_self c k now
  · rw [getAt_eraseKey_ne hk]; exact h

theorem getAt_foldl_eraseKey_none {k : Str} {now : Nat} :
    ∀ (ks : List Str) (c : TTLCache V), c.getAt k now = none →
      (ks.foldl eraseKey c).getAt k now = none
  | [], _, h => h
  | k0 :: rest, c, h =>
    getAt_foldl_eraseKey_none rest (c.eraseKey k0) (getAt_eraseKey_none k0 h)

theorem getAt_foldl_eraseKey_mem {k : Str} {now : Nat} :
    ∀ {ks : List Str} (c : TTLCache V), k ∈ ks →
      (ks.foldl eraseKey c).getAt k now = none
  | k0 :: rest, c, h => by
    rcases List.mem_cons.mp h with rfl | hmem
    · exact getAt_foldl_eraseKey_none rest (c.eraseKey k) (getAt_eraseKey_self c k now)
    · exact getAt_foldl_eraseKey_mem (c.eraseKey k0) hmem

theorem getAt_foldl_eraseKey_notMem {k : Str} {now : Nat} :
    ∀ {ks : List Str} (c : TTLCache V), (∀ k' ∈ ks, k ≠ k') →
      (ks.foldl eraseKey c).getAt k now = c.getAt k now
  | [], _, _ => rfl
  | k0 :: rest, c, h => by
    have h0 : k ≠ k0 := h k0 (List.mem_cons_self _ _)
    rw [List.foldl_cons,
      getAt_foldl_eraseKey_notMem (c.eraseKey k0)
        (fun k' hk' => h k' (List.mem_cons_of_mem _ hk'))]
    exact getAt_eraseKey_ne h0 c now

theorem findEntry_some_mem {k : Str} {e : CacheEntry V} :
    ∀ {l : List (Str × CacheEntry V)}, findEntry k l = some e → (k, e) ∈ l
  | (k', e') :: rest, h => by
    by_cases hk : k' = k
    · subst hk
      rw [findEntry, if_pos rfl] at h
      cases h
      exact List.mem_cons_self _ _
    · rw [findEntry, if_neg hk] at h
      exact List.mem_cons_of_mem _ (findEntry_some_mem h)

theorem mem_liveKeysAt_of_getAt {c : TTLCache V} {k : Str} {v : V} {now : Nat}
    (h : c.getAt k now = some v) : k ∈ c.liveKeysAt now := by
  rcases hfe : findEntry k c.entries with _ | e
  · rw [getAt, hfe] at h
    cases h
  · simp only [getAt, hfe] at h
    have hlive : now < e.insertedAt + c.ttl := by
      by_contra hcon
      rw [if_neg hcon] at h
      cases h
    have hmem := findEntry_some_mem hfe
    unfold liveKeysAt
    exact List.mem_map.mpr ⟨(k, e), List.mem_filter.mpr ⟨hmem, by simpa using hlive⟩, rfl⟩

theorem exists_entry_of_mem_liveKeysAt {c : TTLCache V} {k : Str} {now : Nat}
    (h : k ∈ c.liveKeysAt now) : ∃ p ∈ c.entries, p.1 = k := by
  unfold liveKeysAt at h
  rcases List.mem_map.mp h with ⟨p, hp, hk⟩
  exact ⟨p, (List.mem_filter.mp hp).1, hk⟩

theorem mem_entries_eraseKey {c : TTLCache V} {k' : Str} {p : Str × CacheEntry V}
    (h : p ∈ (c.eraseKey k').entries) : p ∈ c.entries :=
  (List.mem_filter.mp h).1

theorem not_key_eraseKey_self {c : TTLCache V} {k : Str} :
    ∀ p ∈ (c.eraseKey k).entries, p.1 ≠ k := by
  intro p hp
  have := (List.mem_filter.mp hp).2
  simpa using this

theorem not_key_foldl_eraseKey_preserved {k : Str} :
    ∀ (ks : List Str) (c : TTLCache V), (∀ p ∈ c.entries, p.1 ≠ k) →
      ∀ p ∈ ((ks.foldl eraseKey c).entries), p.1 ≠ k
  | [], _, h => h
  | k0 :: rest, c, h =>
    not_key_foldl_eraseKey_preserved rest (c.eraseKey k0)
      (fun p hp => h p (mem_entries_eraseKey hp))

theorem not_key_foldl_eraseKey_mem {k : Str} :
    ∀ {ks : List Str} (c : TTLCache V), k ∈ ks →
      ∀ p ∈ ((ks.foldl eraseKey c).entries), p.1 ≠ k
  | k0 :: rest, c, h => by
    rcases List.mem_cons.mp h with rfl | hmem
    · exact not_key_foldl_eraseKey_preserved rest (c.eraseKey k) not_key_eraseKey_self
    · exact not_key_foldl_eraseKey_mem (c.eraseKey k0) hmem

/-- Erasing a live key changes the cache. -/
theorem eraseKey_ne_of_containsAt {c : TTLCache V} {k : Str} {now : Nat}
    (h : c.containsAt k now = true) : c.eraseKey k ≠ c := by
  intro heq
  have h2 := getAt_eraseKey_self c k now
  rw [heq] at h2
  unfold containsAt at h
  rw [h2] at h
  cases h

/-- Folding erasures over a nonempty list of live keys changes the cache. -/
theorem foldl_eraseKey_ne_of_liveKeys {c : TTLCache V} {ks : List Str} {now : Nat}
    (hne : ks ≠ []) (hsub : ∀ k ∈ ks, k ∈ c.liveKeysAt now) :
    ks.foldl eraseKey c ≠ c := by
  intro heq
  rcases ks with _ | ⟨k0, rest⟩
  · exact hne rfl
  · have hk0 : k0 ∈ c.liveKeysAt now := hsub k0 (List.mem_cons_self _ _)
    rcases exists_entry_of_mem_liveKeysAt hk0 with ⟨p, hp, hpk⟩
    have hnot := not_key_foldl_eraseKey_mem c
      (List.mem_cons_self k0 rest) p
    rw [heq] at hnot
    exact hnot hp hpk

end TTLCache

/-! ### Lemmas about the accessor, the router and the operations -/

theorem cacheOf_setCache_self (st : ClientState V) (kind : CacheKind) (c : TTLCache V) :
    (st.setCache kind c).cacheOf kind = c := by
  cases kind <;> rfl

theorem stats_setCache (st : ClientState V) (kind : CacheKind) (c : TTLCache V) :
    (st.setCache kind c).stats = st.stats := by
  cases kind <;> rfl

theorem get_from_cache_disabled {cfg : Config} (hdis : cfg.enableCaching = false)
    (st : ClientState V) (kind : CacheKind) (key : Str) (now : Nat) :
    get_from_cache cfg st kind key now = (none, st) := by
  unfold get_from_cache
  rw [hdis]
  rfl

theorem store_in_cache_disabled {cfg : Config} (hdis : cfg.enableCaching = false)
    (st : ClientState V) (kind : CacheKind) (key : Str) (v : V) (now : Nat) :
    store_in_cache cfg st kind key v now = st := by
  unfold store_in_cache
  rw [hdis]
  rfl

theorem invalidate_cache_disabled {cfg : Config} (hdis : cfg.enableCaching = false)
    (st : ClientState V) (rid : Str) (rt : ResourceType) (now : Nat) :
    invalidate_cache cfg st rid rt now = st := by
  unfold invalidate_cache
  rw [hdis]
  rfl

theorem get_from_cache_result {cfg : Config} (hen : cfg.enableCaching = true)
    (st : ClientState V) (kind : CacheKind) (key : Str) (now : Nat) :
    (get_from_cache cfg st kind key now).1 = (st.cacheOf kind).getAt key now := by
  unfold get_from_cache
  rw [hen]
  cases hget : (st.cacheOf kind).getAt key now <;> simp

theorem get_from_cache_caches (cfg : Config) (st : ClientState V) (kind : CacheKind)
    (key : Str) (now : Nat) :
    (get_from_cache cfg st kind key now).2.pageCache = st.pageCache
    ∧ (get_from_cache cfg st kind key now).2.blocksCache = st.blocksCache
    ∧ (get_from_cache cfg st kind key now).2.dbCache = st.dbCache
    ∧ (get_from_cache cfg st kind key now).2.dataSourceCache = st.dataSourceCache := by
  unfold get_from_cache
  by_cases hen : cfg.enableCaching
  · rw [if_pos hen]
    cases hget : (st.cacheOf kind).getAt key now <;> simp
  · rw [if_neg hen]
    exact ⟨rfl, rfl, rfl, rfl⟩

theorem get_from_cache_stats_enabled {cfg : Config} (hen : cfg.enableCaching = true)
    (st : ClientState V) (kind : CacheKind) (key : Str) (now : Nat) :
    (get_from_cache cfg st kind key now).2.stats.hits
        = st.stats.hits + (if (st.cacheOf kind).containsAt key now then 1 else 0)
    ∧ (get_from_cache cfg st kind key now).2.stats.misses
        = st.stats.misses + (if (st.cacheOf kind).containsAt key now then 0 else 1)
    ∧ (get_from_cache cfg st kind key now).2.stats.invalidations = st.stats.invalidations
    ∧ (get_from_cache cfg st kind key now).1.isSome = (st.cacheOf kind).containsAt key now := by
  unfold get_from_cache TTLCache.containsAt
  rw [hen]
  cases hget : (st.cacheOf kind).getAt key now <;> simp [hget]

theorem store_in_cache_stats (cfg : Config) (st : ClientState V) (kind : CacheKind)
    (key : Str) (v : V) (now : Nat) :
    (store_in_cache cfg st kind key v now).stats = st.stats := by
  unfold store_in_cache
  split
  · exact stats_setCache st kind _
  · rfl

theorem invalidate_cache_pageCache {cfg : Config} (hen : cfg.enableCaching = true)
    (st : ClientState V) (rid : Str) (rt : ResourceType) (now : Nat) :
    (invalidate_cache cfg st rid rt now).pageCache
      = if pageHitOf st rid rt now then st.pageCache.eraseKey rid else st.pageCache := by
  unfold invalidate_cache
  rw [hen]
  rfl

theorem invalidate_cache_blocksCache {cfg : Config} (hen : cfg.enableCaching = true)
    (st : ClientState V) (rid : Str) (rt : ResourceType) (now : Nat) :
    (invalidate_cache cfg st rid rt now).blocksCache
      = (blockKeysToDelete st rid rt now).foldl TTLCache.eraseKey st.blocksCache := by
  unfold invalidate_cache
  rw [hen]
  rfl

theorem invalidate_cache_dbCache {cfg : Config} (hen : cfg.enableCaching = true)
    (st : ClientState V) (rid : Str) (rt : ResourceType) (now : Nat) :
    (invalidate_cache cfg st rid rt now).dbCache
      = if dbHitOf st rid rt now then st.dbCache.eraseKey rid else st.dbCache := by
  unfold invalidate_cache
  rw [hen]
  rfl

theorem invalidate_cache_dataSourceCache {cfg : Config} (hen : cfg.enableCaching = true)
    (st : ClientState V) (rid : Str) (rt : ResourceType) (now : Nat) :
    (invalidate_cache cfg st rid rt now).dataSourceCache
      = if dsHitOf st rid rt now then st.dataSourceCache.eraseKey rid else st.dataSourceCache := by
  unfold invalidate_cache
  rw [hen]
  rfl

theorem invalidate_cache_stats {cfg : Config} (hen : cfg.enableCaching = true)
    (st : ClientState V) (rid : Str) (rt : ResourceType) (now : Nat) :
    (invalidate_cache cfg st rid rt now).stats
      = if pageHitOf st rid rt now || !(blockKeysToDelete st rid rt now).isEmpty
          || dbHitOf st rid rt now || dsHitOf st rid rt now
        then { st.stats with invalidations := st.stats.invalidations + 1 }
        else st.stats := by
  unfold invalidate_cache
  rw [hen]
  rfl

theorem invalidate_cache_hits_misses (cfg : Config) (st : ClientState V) (rid : Str)
    (rt : ResourceType) (now : Nat) :
    (invalidate_cache cfg st rid rt now).stats.hits = st.stats.hits
    ∧ (invalidate_cache cfg st rid rt now).stats.misses = st.stats.misses := by
  unfold invalidate_cache
  split
  · constructor <;> (simp only []; split <;> rfl)
  · exact ⟨rfl, rfl⟩

theorem get_from_cache_eq_hit {cfg : Config} (hen : cfg.enableCaching = true)
    {st : ClientState V} {kind : CacheKind} {key : Str} {now : Nat} {v : V}
    (h : (st.cacheOf kind).getAt key now = some v) :
    get_from_cache cfg st kind key now
      = (some v, { st with stats := { st.stats with hits := st.stats.hits + 1 } }) := by
  unfold get_from_cache
  rw [hen, h]
  rfl

theorem get_from_cache_eq_miss {cfg : Config} (hen : cfg.enableCaching = true)
    {st : ClientState V} {kind : CacheKind} {key : Str} {now : Nat}
    (h : (st.cacheOf kind).getAt key now = none) :
    get_from_cache cfg st kind key now
      = (none, { st with stats := { st.stats with misses := st.stats.misses + 1 } }) := by
  unfold get_from_cache
  rw [hen, h]
  rfl

theorem read_through_eq_hit {cfg : Config} (hen : cfg.enableCaching = true)
    {st : ClientState V} {kind : CacheKind} {key : Str} {now : Nat} {v : V}
    (remote : RemoteOutcome V) (h : (st.cacheOf kind).getAt key now = some v) :
    read_through cfg st kind key remote now
      = (Result.ok v,
         { st with stats := { st.stats with hits := st.stats.hits + 1 } }, false) := by
  unfold read_through
  rw [get_from_cache_eq_hit hen h]

theorem read_through_eq_miss_ok {cfg : Config} (hen : cfg.enableCaching = true)
    {st : ClientState V} {kind : CacheKind} {key : Str} {now : Nat} {v : V}
    {remote : RemoteOutcome V} (h : (st.cacheOf kind).getAt key now = none)
    (hr : run_request remote = Result.ok v) :
    read_through cfg st kind key remote now
      = (Result.ok v,
         store_in_cache cfg
           { st with stats := { st.stats with misses := st.stats.misses + 1 } }
           kind key v now,
         true) := by
  unfold read_through
  rw [get_from_cache_eq_miss hen h]
  simp only [hr]

theorem read_through_eq_miss_error {cfg : Config} (hen : cfg.enableCaching = true)
    {st : ClientState V} {kind : CacheKind} {key : Str} {now : Nat} {e : RaisedError}
    {remote : RemoteOutcome V} (h : (st.cacheOf kind).getAt key now = none)
    (hr : run_request remote = Result.error e) :
    read_through cfg st kind key remote now
      = (Result.error e,
         { st with stats := { st.stats with misses := st.stats.misses + 1 } }, true) := by
  unfold read_through
  rw [get_from_cache_eq_miss hen h]
  simp only [hr]

theorem read_through_disabled_ok {cfg : Config} (hdis : cfg.enableCaching = false)
    {st : ClientState V} {kind : CacheKind} {key : Str} {now : Nat} {v : V}
    {remote : RemoteOutcome V} (hr : run_request remote = Result.ok v) :
    read_through cfg st kind key remote now = (Result.ok v, st, true) := by
  unfold read_through
  rw [get_from_cache_disabled hdis]
  simp only [hr, store_in_cache_disabled hdis]

theorem read_through_disabled_error {cfg : Config} (hdis : cfg.enableCaching = false)
    {st : ClientState V} {kind : CacheKind} {key : Str} {now : Nat} {e : RaisedError}
    {remote : RemoteOutcome V} (hr : run_request remote = Result.error e) :
    read_through cfg st kind key remote now = (Result.error e, st, true) := by
  unfold read_through
  rw [get_from_cache_disabled hdis]
  simp only [hr]

theorem write_through_all_eq_ok {cfg : Config} {st : ClientState V} {id : Str}
    {now : Nat} {v : V} {remote : RemoteOutcome V}
    (hr : run_request remote = Result.ok v) :
    write_through_all cfg st id remote now
      = (Result.ok v, invalidate_cache cfg st id ResourceType.all now, true) := by
  unfold write_through_all
  rw [hr]

theorem write_through_all_eq_error {cfg : Config} {st : ClientState V} {id : Str}
    {now : Nat} {e : RaisedError} {remote : RemoteOutcome V}
    (hr : run_request remote = Result.error e) :
    write_through_all cfg st id remote now = (Result.error e, st, true) := by
  unfold write_through_all
  rw [hr]

theorem update_data_source_eq_ok {cfg : Config} {st : ClientState V} {id : Str}
    {pdb : Option Str} {now : Nat} {v : V} {remote : RemoteOutcome V}
    (hr : run_request remote = Result.ok v) :
    update_data_source cfg st id pdb remote now
      = (Result.ok v,
         (match pdb with
          | some dbId => invalidate_cache cfg
              (invalidate_cache cfg st id ResourceType.data_sources now)
              dbId ResourceType.databases now
          | none => invalidate_cache cfg st id ResourceType.data_sources now),
         true) := by
  unfold update_data_source
  rw [hr]

theorem update_data_source_eq_error {cfg : Config} {st : ClientState V} {id : Str}
    {pdb : Option Str} {now : Nat} {e : RaisedError} {remote : RemoteOutcome V}
    (hr : run_request remote = Result.error e) :
    update_data_source cfg st id pdb remote now = (Result.error e, st, true) := by
  unfold update_data_source
  rw [hr]

/-- Per-operation hit/miss accounting: exactly one counter bump per read
(the single `_get_from_cache` call), none for writes. -/
theorem step_hm {cfg : Config} (hen : cfg.enableCaching = true)
    (st : ClientState V) (op : Op V) :
    (step cfg st op).2.1.stats.hits + (step cfg st op).2.1.stats.misses
      = st.stats.hits + st.stats.misses + (if isRead op then 1 else 0) := by
  have hread : ∀ (kind : CacheKind) (key : Str) (remote : RemoteOutcome V) (now : Nat),
      (read_through cfg st kind key remote now).2.1.stats.hits
        + (read_through cfg st kind key remote now).2.1.stats.misses
        = st.stats.hits + st.stats.misses + 1 := by
    intro kind key remote now
    cases hget : (st.cacheOf kind).getAt key now with
    | none =>
      cases hr : run_request remote with
      | ok v =>
        rw [read_through_eq_miss_ok hen hget hr]
        simp [store_in_cache_stats]
        omega
      | error e =>
        rw [read_through_eq_miss_error hen hget hr]
        simp
        omega
    | some v =>
      rw [read_through_eq_hit hen remote hget]
      simp [Nat.add_right_comm]
  have hwrite : ∀ (id : Str) (remote : RemoteOutcome V) (now : Nat),
      (write_through_all cfg st id remote now).2.1.stats.hits
        + (write_through_all cfg st id remote now).2.1.stats.misses
        = st.stats.hits + st.stats.misses := by
    intro id remote now
    cases hr : run_request remote with
    | ok v =>
      have h2 := invalidate_cache_hits_misses cfg st id ResourceType.all now
      rw [write_through_all_eq_ok hr]
      simp [h2.1, h2.2]
    | error e =>
      rw [write_through_all_eq_error hr]
  have hds : ∀ (id : Str) (pdb : Option Str) (remote : RemoteOutcome V) (now : Nat),
      (update_data_source cfg st id pdb remote now).2.1.stats.hits
        + (update_data_source cfg st id pdb remote now).2.1.stats.misses
        = st.stats.hits + st.stats.misses := by
    intro id pdb remote now
    cases hr : run_request remote with
    | ok v =>
      rw [update_data_source_eq_ok hr]
      cases pdb with
      | some dbId =>
        have h1 := invalidate_cache_hits_misses cfg st id ResourceType.data_sources now
        have h2 := invalidate_cache_hits_misses cfg
          (invalidate_cache cfg st id ResourceType.data_sources now)
          dbId ResourceType.databases now
        simp [h2.1, h2.2, h1.1, h1.2]
      | none =>
        have h1 := invalidate_cache_hits_misses cfg st id ResourceType.data_sources now
        simp [h1.1, h1.2]
    | error e =>
      rw [update_data_source_eq_error hr]
  cases op with
  | getPage id remote now =>
    simpa [step, get_page, isRead] using hread CacheKind.pages id remote now
  | getDatabase id remote now =>
    simpa [step, get_database, isRead] using hread CacheKind.databases id remote now
  | getDataSource id remote now =>
    simpa [step, get_data_source, isRead] using hread CacheKind.dataSources id remote now
  | getBlockChildren id ps remote now =>
    simpa [step, get_block_children, isRead]
      using hread CacheKind.blocks (blockChildrenKey id ps) remote now
  | updatePage id remote now =>
    simpa [step, update_page, isRead] using hwrite id remote now
  | updateDatabase id remote now =>
    simpa [step, update_database, isRead] using hwrite id remote now
  | updateDataSource id pdb remote now =>
    simpa [step, isRead] using hds id pdb remote now
  | updateBlock id remote now =>
    simpa [step, update_block, isRead] using hwrite id remote now
  | deleteBlock id remote now =>
    simpa [step, delete_block, isRead] using hwrite id remote now
  | appendBlockChildren id remote now =>
    simpa [step, append_block_children, isRead] using hwrite id remote now

/-- Sequence-level hit/miss accounting. -/
theorem runOps_hm {cfg : Config} (hen : cfg.enableCaching = true) (ops : List (Op V)) :
    ∀ st : ClientState V,
      (runOps cfg st ops).stats.hits + (runOps cfg st ops).stats.misses
        = st.stats.hits + st.stats.misses + countReads ops := by
  induction ops with
  | nil =>
    intro st
    simp [runOps, countReads]
  | cons op ops ih =>
    intro st
    rw [runOps, ih ((step cfg st op).2.1)]
    have hstep := step_hm hen st op
    unfold countReads at *
    rw [List.filter_cons]
    cases hro : isRead op with
    | true =>
      simp [hro] at hstep ⊢
      omega
    | false =>
      simp [hro] at hstep ⊢
      omega

/-- Conditionally erasing a key the way the router does always leaves the
key absent (live) afterwards. -/
theorem containsAt_conditional_erase (c : TTLCache V) (k : Str) (now : Nat) :
    (if c.containsAt k now then c.eraseKey k else c).containsAt k now = false := by
  cases hc : c.containsAt k now with
  | true =>
    rw [if_pos rfl]
    unfold TTLCache.containsAt
    rw [TTLCache.getAt_eraseKey_self]
    rfl
  | false =>
    rw [if_neg (by simp)]
    exact hc

theorem blockKeysToDelete_subset_liveKeys {st : ClientState V} {rid : Str}
    {rt : ResourceType} {now : Nat} :
    ∀ k ∈ blockKeysToDelete st rid rt now, k ∈ st.blocksCache.liveKeysAt now := by
  intro k hk
  unfold blockKeysToDelete at hk
  split at hk
  · exact (List.mem_filter.mp hk).1
  · cases hk

theorem blockKeysToDelete_matches {st : ClientState V} {rid : Str}
    {rt : ResourceType} {now : Nat} :
    ∀ k ∈ blockKeysToDelete st rid rt now, matchesKey rid k = true := by
  intro k hk
  unfold blockKeysToDelete at hk
  split at hk
  · exact (List.mem_filter.mp hk).2
  · cases hk

/-- On a miss, a read-through always performs the remote call. -/
theorem read_through_remote_of_miss {cfg : Config} (hen : cfg.enableCaching = true)
    {st : ClientState V} {kind : CacheKind} {key : Str} {now : Nat}
    (remote : RemoteOutcome V) (h : (st.cacheOf kind).getAt key now = none) :
    (read_through cfg st kind key remote now).2.2 = true := by
  cases hr : run_request remote with
  | ok v => rw [read_through_eq_miss_ok hen h hr]
  | error e => rw [read_through_eq_miss_error hen h hr]

theorem cacheOf_store_in_cache {cfg : Config} (hen : cfg.enableCaching = true)
    (st : ClientState V) (kind : CacheKind) (key : Str) (v : V) (now : Nat) :
    (store_in_cache cfg st kind key v now).cacheOf kind
      = (st.cacheOf kind).putAt key v now := by
  unfold store_in_cache
  rw [hen]
  simp only [if_pos]
  exact cacheOf_setCache_self st kind _

/-! ### The claims -/

/-- C1 — the claim (write-then-read consistency for every write operation,
`update_data_source` included) is what the spec states and what the code's
own comments intend, but the code violates it: `update_data_source` passes
the unrecognized scope string `"data_sources"` to `_invalidate_cache`
(whose documented domain is `page/block/database/data_source/all`), so
nothing is invalidated.  Concretely: `get_data_source "ds1"` caches the
value `1`; `update_data_source "ds1"` succeeds remotely (returning `2`)
but deletes nothing; the next `get_data_source "ds1"` returns the stale
pre-write value `1` from the cache with no remote call, and the
invalidations counter is still `0`. -/
theorem update_data_source_stale_read :
    (get_data_source cfgN st0N ['d', 's', '1'] (RemoteOutcome.response 200 1) 0).1
        = Result.ok 1
    ∧ (get_data_source cfgN st0N ['d', 's', '1'] (RemoteOutcome.response 200 1) 0).2.2 = true
    ∧ (update_data_source cfgN
        (get_data_source cfgN st0N ['d', 's', '1'] (RemoteOutcome.response 200 1) 0).2.1
        ['d', 's', '1'] none (RemoteOutcome.response 200 2) 1).1 = Result.ok 2
    ∧ (get_data_source cfgN
        (update_data_source cfgN
          (get_data_source cfgN st0N ['d', 's', '1'] (RemoteOutcome.response 200 1) 0).2.1
          ['d', 's', '1'] none (RemoteOutcome.response 200 2) 1).2.1
        ['d', 's', '1'] (RemoteOutcome.response 200 3) 2).1 = Result.ok 1
    ∧ (get_data_source cfgN
        (update_data_source cfgN
          (get_data_source cfgN st0N ['d', 's', '1'] (RemoteOutcome.response 200 1) 0).2.1
          ['d', 's', '1'] none (RemoteOutcome.response 200 2) 1).2.1
        ['d', 's', '1'] (RemoteOutcome.response 200 3) 2).2.2 = false
    ∧ (update_data_source cfgN
        (get_data_source cfgN st0N ['d', 's', '1'] (RemoteOutcome.response 200 1) 0).2.1
        ['d', 's', '1'] none (RemoteOutcome.response 200 2) 1).2.1.stats.invalidations = 0 := by
  decide

/-- C4 counterexample — the claim asserts that a transport timeout yields
a distinct Timeout-kind error; in the code a timeout is wrapped into the
catch-all `NotionAPIError` (no status), the very same kind produced for a
500 response, and the taxonomy of `exceptions.py` has no Timeout class at
all.  Moreover a 304 response (non-2xx) raises no error: the body is
returned as success, since only statuses `>= 400` are mapped. -/
theorem error_classification_counterexample :
    run_request (RemoteOutcome.timeout : RemoteOutcome Nat)
        = Result.error ⟨ErrorKind.apiError, none⟩
    ∧ run_request (RemoteOutcome.response 500 0 : RemoteOutcome Nat)
        = Result.error ⟨ErrorKind.apiError, some 500⟩
    ∧ (run_request (RemoteOutcome.timeout : RemoteOutcome Nat)
        = Result.error ⟨ErrorKind.apiError, none⟩
       ∧ (Result.error ⟨ErrorKind.apiError, none⟩ : Result Nat)
          ≠ Result.error ⟨ErrorKind.authentication, none⟩)
    ∧ run_request (RemoteOutcome.response 304 7 : RemoteOutcome Nat) = Result.ok 7 := by
  decide

/-- C4 (amended) — the status mapping holds for statuses `>= 400`:
401 Authentication, 400 Validation, 429 RateLimit, 404 NotFound,
409 Conflict, and any other status `>= 400` the catch-all API error kind
carrying the status; a response with status `< 400` (2xx or 3xx) is
returned as success; a transport-level timeout (as well as a connection
failure or an unexpected exception) is wrapped into the catch-all
`NotionAPIError` kind with no status code — the taxonomy has no distinct
Timeout kind. -/
theorem error_classification_amended {V : Type} (b : V) (s1 s2 : Nat)
    (hs1 : 400 ≤ s1) (hs1m : s1 ∉ ([401, 400, 429, 404, 409] : List Nat))
    (hs2 : s2 < 400) :
    handle_error 401 = ErrorKind.authentication
    ∧ handle_error 400 = ErrorKind.validation
    ∧ handle_error 429 = ErrorKind.rateLimit
    ∧ handle_error 404 = ErrorKind.notFound
    ∧ handle_error 409 = ErrorKind.conflict
    ∧ run_request (RemoteOutcome.response s1 b)
        = Result.error ⟨ErrorKind.apiError, some s1⟩
    ∧ run_request (RemoteOutcome.response s2 b) = Result.ok b
    ∧ run_request (RemoteOutcome.timeout : RemoteOutcome V)
        = Result.error ⟨ErrorKind.apiError, none⟩
    ∧ run_request (RemoteOutcome.connectionError : RemoteOutcome V)
        = Result.error ⟨ErrorKind.apiError, none⟩
    ∧ run_request (RemoteOutcome.unexpected : RemoteOutcome V)
        = Result.error ⟨ErrorKind.apiError, none⟩ := by
  refine ⟨rfl, rfl, rfl, rfl, rfl, ?_, ?_, rfl, rfl, rfl⟩
  · simp only [List.mem_cons, List.not_mem_nil, or_false, not_or] at hs1m
    simp only [run_request]
    rw [if_pos hs1]
    unfold handle_error
    rw [if_neg hs1m.1, if_neg hs1m.2.1, if_neg hs1m.2.2.1,
      if_neg hs1m.2.2.2.1, if_neg hs1m.2.2.2.2]
  · simp only [run_request]
    rw [if_neg (by omega)]

/-- C4 witness: the amended statement applied at status 500 (catch-all)
and status 304 (success). -/
theorem error_classification_amended_witness :
    400 ≤ 500 ∧ (500 : Nat) ∉ ([401, 400, 429, 404, 409] : List Nat) ∧ 304 < 400
    ∧ (handle_error 401 = ErrorKind.authentication
    ∧ handle_error 400 = ErrorKind.validation
    ∧ handle_error 429 = ErrorKind.rateLimit
    ∧ handle_error 404 = ErrorKind.notFound
    ∧ handle_error 409 = ErrorKind.conflict
    ∧ run_request (RemoteOutcome.response 500 (0 : Nat))
        = Result.error ⟨ErrorKind.apiError, some 500⟩
    ∧ run_request (RemoteOutcome.response 304 (0 : Nat)) = Result.ok 0
    ∧ run_request (RemoteOutcome.timeout : RemoteOutcome Nat)
        = Result.error ⟨ErrorKind.apiError, none⟩
    ∧ run_request (RemoteOutcome.connectionError : RemoteOutcome Nat)
        = Result.error ⟨ErrorKind.apiError, none⟩
    ∧ run_request (RemoteOutcome.unexpected : RemoteOutcome Nat)
        = Result.error ⟨ErrorKind.apiError, none⟩) :=
  ⟨by decide, by decide, by decide,
   error_classification_amended 0 500 304 (by decide) (by decide) (by decide)⟩

/-- C5 counterexample — the claim says a failed remote call leaves all
three stat counters untouched; but a failed read has already recorded its
cache miss before the remote call, so `misses` goes from 0 to 1. -/
theorem error_atomicity_counterexample :
    (get_page cfgN st0N ['p', '1'] (RemoteOutcome.response 500 0) 0).1
        = Result.error ⟨ErrorKind.apiError, some 500⟩
    ∧ st0N.stats.misses = 0
    ∧ (get_page cfgN st0N ['p', '1'] (RemoteOutcome.response 500 0) 0).2.1.stats.misses = 1
    ∧ (get_page cfgN st0N ['p', '1'] (RemoteOutcome.response 500 0) 0).2.1.stats
        ≠ st0N.stats := by
  decide

/-- C3 counterexample — with `X = "b:50"` and `Y = "b"` the claim's
hypotheses hold (`X ≠ Y`, and `Y` is not of the form `X ++ ":" ++ ...`,
witnessed by `startsWith (X ++ ":") Y = false` and `X ≠ Y`), the blocks
cache holds the entries keyed `"X:50"` (= `"b:50:50"`) and `"Y:50"`
(= `"b:50"`), yet invalidating `X` with scope `block` (or `all`) deletes
`"Y:50"` as well, because `"Y:50"` is literally equal to `X`. -/
theorem composite_key_matching_counterexample :
    (['b', ':', '5', '0'] : Str) ≠ (['b'] : Str)
    ∧ startsWith ((['b', ':', '5', '0'] : Str) ++ [':']) ['b'] = false
    ∧ stComposite.blocksCache.getAt ((['b', ':', '5', '0'] : Str) ++ [':', '5', '0']) 0
        = some 1
    ∧ stComposite.blocksCache.getAt ((['b'] : Str) ++ [':', '5', '0']) 0 = some 2
    ∧ (invalidate_cache cfgN stComposite ['b', ':', '5', '0']
        ResourceType.block 0).blocksCache.getAt ((['b'] : Str) ++ [':', '5', '0']) 0 = none
    ∧ (invalidate_cache cfgN stComposite ['b', ':', '5', '0']
        ResourceType.all 0).blocksCache.getAt ((['b'] : Str) ++ [':', '5', '0']) 0 = none := by
  decide

/-- When the scope does not address the page cache, the page cache is
untouched. -/
theorem invalidate_pageCache_unchanged {cfg : Config} (hen : cfg.enableCaching = true)
    (st : ClientState V) (rid : Str) (now : Nat) {rt : ResourceType}
    (h : (decide (rt = ResourceType.page) || decide (rt = ResourceType.all)) = false) :
    (invalidate_cache cfg st rid rt now).pageCache = st.pageCache := by
  rw [invalidate_cache_pageCache hen]
  have hph : pageHitOf st rid rt now = false := by
    unfold pageHitOf
    rw [h]
    rfl
  rw [hph, if_neg (by simp)]

/-- When the scope does not address the blocks cache, the blocks cache is
untouched. -/
theorem invalidate_blocksCache_unchanged {cfg : Config} (hen : cfg.enableCaching = true)
    (st : ClientState V) (rid : Str) (now : Nat) {rt : ResourceType}
    (h : (decide (rt = ResourceType.block) || decide (rt = ResourceType.all)) = false) :
    (invalidate_cache cfg st rid rt now).blocksCache = st.blocksCache := by
  rw [invalidate_cache_blocksCache hen]
  unfold blockKeysToDelete
  rw [h, if_neg (by simp)]
  rfl

/-- When the scope does not address the database cache, the database
cache is untouched. -/
theorem invalidate_dbCache_unchanged {cfg : Config} (hen : cfg.enableCaching = true)
    (st : ClientState V) (rid : Str) (now : Nat) {rt : ResourceType}
    (h : (decide (rt = ResourceType.database) || decide (rt = ResourceType.all)) = false) :
    (invalidate_cache cfg st rid rt now).dbCache = st.dbCache := by
  rw [invalidate_cache_dbCache hen]
  have hdh : dbHitOf st rid rt now = false := by
    unfold dbHitOf
    rw [h]
    rfl
  rw [hdh, if_neg (by simp)]

/-- When the scope does not address the data-source cache, the
data-source cache is untouched. -/
theorem invalidate_dataSourceCache_unchanged {cfg : Config} (hen : cfg.enableCaching = true)
    (st : ClientState V) (rid : Str) (now : Nat) {rt : ResourceType}
    (h : (decide (rt = ResourceType.data_source) || decide (rt = ResourceType.all)) = false) :
    (invalidate_cache cfg st rid rt now).dataSourceCache = st.dataSourceCache := by
  rw [invalidate_cache_dataSourceCache hen]
  have hdh : dsHitOf st rid rt now = false := by
    unfold dsHitOf
    rw [h]
    rfl
  rw [hdh, if_neg (by simp)]

/-- When the scope addresses the page cache, the id ends up absent. -/
theorem invalidate_erases_pageKey {cfg : Config} (hen : cfg.enableCaching = true)
    (st : ClientState V) (rid : Str) (now : Nat) {rt : ResourceType}
    (h : (decide (rt = ResourceType.page) || decide (rt = ResourceType.all)) = true) :
    (invalidate_cache cfg st rid rt now).pageCache.containsAt rid now = false := by
  rw [invalidate_cache_pageCache hen]
  have hph : pageHitOf st rid rt now = st.pageCache.containsAt rid now := by
    unfold pageHitOf
    rw [h]
    rfl
  rw [hph]
  exact containsAt_conditional_erase st.pageCache rid now

/-- When the scope addresses the database cache, the id ends up absent. -/
theorem invalidate_erases_dbKey {cfg : Config} (hen : cfg.enableCaching = true)
    (st : ClientState V) (rid : Str) (now : Nat) {rt : ResourceType}
    (h : (decide (rt = ResourceType.database) || decide (rt = ResourceType.all)) = true) :
    (invalidate_cache cfg st rid rt now).dbCache.containsAt rid now = false := by
  rw [invalidate_cache_dbCache hen]
  have hdh : dbHitOf st rid rt now = st.dbCache.containsAt rid now := by
    unfold dbHitOf
    rw [h]
    rfl
  rw [hdh]
  exact containsAt_conditional_erase st.dbCache rid now

/-- When the scope addresses the data-source cache, the id ends up
absent. -/
theorem invalidate_erases_dataSourceKey {cfg : Config} (hen : cfg.enableCaching = true)
    (st : ClientState V) (rid : Str) (now : Nat) {rt : ResourceType}
    (h : (decide (rt = ResourceType.data_source) || decide (rt = ResourceType.all)) = true) :
    (invalidate_cache cfg st rid rt now).dataSourceCache.containsAt rid now = false := by
  rw [invalidate_cache_dataSourceCache hen]
  have hdh : dsHitOf st rid rt now = st.dataSourceCache.containsAt rid now := by
    unfold dsHitOf
    rw [h]
    rfl
  rw [hdh]
  exact containsAt_conditional_erase st.dataSourceCache rid now

/-- The blocks-cache scan deletes exactly the keys matching the id:
afterwards a key reads as absent iff it matched (and as before
otherwise). -/
theorem invalidate_blocksCache_getAt {cfg : Config} (hen : cfg.enableCaching = true)
    (st : ClientState V) (rid : Str) (now : Nat) {rt : ResourceType}
    (h : (decide (rt = ResourceType.block) || decide (rt = ResourceType.all)) = true)
    (k : Str) :
    (invalidate_cache cfg st rid rt now).blocksCache.getAt k now
      = if matchesKey rid k then none else st.blocksCache.getAt k now := by
  rw [invalidate_cache_blocksCache hen]
  cases hmk : matchesKey rid k with
  | true =>
    rw [if_pos rfl]
    cases hgk : st.blocksCache.getAt k now with
    | none => exact TTLCache.getAt_foldl_eraseKey_none _ _ hgk
    | some v =>
      apply TTLCache.getAt_foldl_eraseKey_mem
      unfold blockKeysToDelete
      rw [if_pos h]
      exact List.mem_filter.mpr ⟨TTLCache.mem_liveKeysAt_of_getAt hgk, hmk⟩
  | false =>
    rw [if_neg (by simp)]
    apply TTLCache.getAt_foldl_eraseKey_notMem
    intro k' hk' hkk
    have hm' := blockKeysToDelete_matches k' hk'
    rw [← hkk, hmk] at hm'
    cases hm'

/-- C2 — alias fan-out: with `X` live in the page cache and some live
blocks-cache key matching `X`, scope `all` removes `X` from the page
cache, every matching key from the blocks cache, and `X` from the
database and data-source caches; each narrower scope removes entries
only from its own cache and leaves the other three caches equal to what
they were. -/
theorem alias_fanout {V : Type} (cfg : Config) (st : ClientState V) (X : Str) (now : Nat)
    (hen : cfg.enableCaching = true)
    (hpage : st.pageCache.containsAt X now = true)
    (hblocks : ∃ k ∈ st.blocksCache.liveKeysAt now, matchesKey X k = true) :
    ((invalidate_cache cfg st X ResourceType.all now).pageCache.containsAt X now = false
      ∧ (∀ k : Str, matchesKey X k = true →
          (invalidate_cache cfg st X ResourceType.all now).blocksCache.getAt k now = none)
      ∧ (invalidate_cache cfg st X ResourceType.all now).dbCache.containsAt X now = false
      ∧ (invalidate_cache cfg st X ResourceType.all now).dataSourceCache.containsAt X now
          = false)
    ∧ ((invalidate_cache cfg st X ResourceType.page now).pageCache.containsAt X now = false
      ∧ (invalidate_cache cfg st X ResourceType.page now).blocksCache = st.blocksCache
      ∧ (invalidate_cache cfg st X ResourceType.page now).dbCache = st.dbCache
      ∧ (invalidate_cache cfg st X ResourceType.page now).dataSourceCache
          = st.dataSourceCache)
    ∧ ((∀ k : Str, matchesKey X k = true →
          (invalidate_cache cfg st X ResourceType.block now).blocksCache.getAt k now = none)
      ∧ (invalidate_cache cfg st X ResourceType.block now).pageCache = st.pageCache
      ∧ (invalidate_cache cfg st X ResourceType.block now).dbCache = st.dbCache
      ∧ (invalidate_cache cfg st X ResourceType.block now).dataSourceCache
          = st.dataSourceCache)
    ∧ ((invalidate_cache cfg st X ResourceType.database now).dbCache.containsAt X now = false
      ∧ (invalidate_cache cfg st X ResourceType.database now).pageCache = st.pageCache
      ∧ (invalidate_cache cfg st X ResourceType.database now).blocksCache = st.blocksCache
      ∧ (invalidate_cache cfg st X ResourceType.database now).dataSourceCache
          = st.dataSourceCache)
    ∧ ((invalidate_cache cfg st X
          ResourceType.data_source now).dataSourceCache.containsAt X now = false
      ∧ (invalidate_cache cfg st X ResourceType.data_source now).pageCache = st.pageCache
      ∧ (invalidate_cache cfg st X ResourceType.data_source now).blocksCache = st.blocksCache
      ∧ (invalidate_cache cfg st X ResourceType.data_source now).dbCache = st.dbCache) := by
  refine ⟨⟨?_, ?_, ?_, ?_⟩, ⟨?_, ?_, ?_, ?_⟩, ⟨?_, ?_, ?_, ?_⟩, ⟨?_, ?_, ?_, ?_⟩,
    ⟨?_, ?_, ?_, ?_⟩⟩
  · exact invalidate_erases_pageKey hen st X now (by decide)
  · intro k hmk
    rw [invalidate_blocksCache_getAt hen st X now (by decide) k, if_pos hmk]
  · exact invalidate_erases_dbKey hen st X now (by decide)
  · exact invalidate_erases_dataSourceKey hen st X now (by decide)
  · exact invalidate_erases_pageKey hen st X now (by decide)
  · exact invalidate_blocksCache_unchanged hen st X now (by decide)
  · exact invalidate_dbCache_unchanged hen st X now (by decide)
  · exact invalidate_dataSourceCache_unchanged hen st X now (by decide)
  · intro k hmk
    rw [invalidate_blocksCache_getAt hen st X now (by decide) k, if_pos hmk]
  · exact invalidate_pageCache_unchanged hen st X now (by decide)
  · exact invalidate_dbCache_unchanged hen st X now (by decide)
  · exact invalidate_dataSourceCache_unchanged hen st X now (by decide)
  · exact invalidate_erases_dbKey hen st X now (by decide)
  · exact invalidate_pageCache_unchanged hen st X now (by decide)
  · exact invalidate_blocksCache_unchanged hen st X now (by decide)
  · exact invalidate_dataSourceCache_unchanged hen st X now (by decide)
  · exact invalidate_erases_dataSourceKey hen st X now (by decide)
  · exact invalidate_pageCache_unchanged hen st X now (by decide)
  · exact invalidate_blocksCache_unchanged hen st X now (by decide)
  · exact invalidate_dbCache_unchanged hen st X now (by decide)

/-- C2 witness: the fan-out theorem applied to `stAlias`
(page-cache entry `"p"`, blocks-cache entry `"p:50"`). -/
theorem alias_fanout_witness :
    cfgN.enableCaching = true
    ∧ stAlias.pageCache.containsAt ['p'] 0 = true
    ∧ matchesKey ['p'] ['p', ':', '5', '0'] = true
    ∧ (invalidate_cache cfgN stAlias ['p'] ResourceType.all 0).pageCache.containsAt
        ['p'] 0 = false
    ∧ (invalidate_cache cfgN stAlias ['p'] ResourceType.all 0).blocksCache.getAt
        ['p', ':', '5', '0'] 0 = none
    ∧ (invalidate_cache cfgN stAlias ['p'] ResourceType.page 0).blocksCache
        = stAlias.blocksCache :=
  ⟨rfl, by decide, by decide,
   (alias_fanout cfgN stAlias ['p'] 0 rfl (by decide)
      ⟨['p', ':', '5', '0'], by decide, by decide⟩).1.1,
   (alias_fanout cfgN stAlias ['p'] 0 rfl (by decide)
      ⟨['p', ':', '5', '0'], by decide, by decide⟩).1.2.1
     ['p', ':', '5', '0'] (by decide),
   (alias_fanout cfgN stAlias ['p'] 0 rfl (by decide)
      ⟨['p', ':', '5', '0'], by decide, by decide⟩).2.1.2.1⟩

/-- C3 (amended) — composite-key matching: invalidating `X` with scope
`block` or `all` deletes exactly the blocks-cache keys equal to `X` or
starting with `X ++ ":"`; under the additional hypothesis that `X` is
not of the form `Y ++ ":" ++ anything` (which the counterexample shows
is needed, alongside the claim's `X ≠ Y` and `Y` not of the form
`X ++ ":" ++ anything`), the key `X ++ ":50"` is removed while
`Y ++ ":50"` keeps its value. -/
theorem composite_key_matching_amended {V : Type} (cfg : Config) (st : ClientState V)
    (X Y : Str) (v1 v2 : V) (now : Nat) (rt : ResourceType)
    (hen : cfg.enableCaching = true)
    (hrt : rt = ResourceType.block ∨ rt = ResourceType.all)
    (hXY : X ≠ Y)
    (hYX : ∀ s, Y ≠ X ++ ':' :: s)
    (hXYc : ∀ s, X ≠ Y ++ ':' :: s)
    (hX50 : st.blocksCache.getAt (X ++ ':' :: ['5', '0']) now = some v1)
    (hY50 : st.blocksCache.getAt (Y ++ ':' :: ['5', '0']) now = some v2) :
    (∀ k : Str, (invalidate_cache cfg st X rt now).blocksCache.getAt k now
        = if matchesKey X k then none else st.blocksCache.getAt k now)
    ∧ (invalidate_cache cfg st X rt now).blocksCache.getAt (X ++ ':' :: ['5', '0']) now
        = none
    ∧ (invalidate_cache cfg st X rt now).blocksCache.getAt (Y ++ ':' :: ['5', '0']) now
        = some v2 := by
  have hb : (decide (rt = ResourceType.block) || decide (rt = ResourceType.all)) = true := by
    rcases hrt with rfl | rfl <;> decide
  have hchar := invalidate_blocksCache_getAt hen st X now hb
  refine ⟨hchar, ?_, ?_⟩
  · rw [hchar, if_pos (matchesKey_self_colon X ['5', '0'])]
  · rw [hchar, if_neg (by rw [matchesKey_colon_false ['5', '0'] hXY hYX hXYc]; simp), hY50]

/-- C3 witness: the amended statement applied to a two-entry blocks
cache with `X = "a"`, `Y = "b"`. -/
theorem composite_key_matching_amended_witness :
    cfgN.enableCaching = true
    ∧ (['a'] : Str) ≠ ['b']
    ∧ (invalidate_cache cfgN
        { pageCache := ⟨300, 100, []⟩
          blocksCache := ⟨600, 100,
            [(['a', ':', '5', '0'], ⟨1, 0⟩), (['b', ':', '5', '0'], ⟨2, 0⟩)]⟩
          dbCache := ⟨1800, 100, []⟩
          dataSourceCache := ⟨1800, 100, []⟩
          stats := ⟨0, 0, 0⟩ }
        ['a'] ResourceType.block 0).blocksCache.getAt ((['a'] : Str) ++ ':' :: ['5', '0']) 0
        = none
    ∧ (invalidate_cache cfgN
        { pageCache := ⟨300, 100, []⟩
          blocksCache := ⟨600, 100,
            [(['a', ':', '5', '0'], ⟨1, 0⟩), (['b', ':', '5', '0'], ⟨2, 0⟩)]⟩
          dbCache := ⟨1800, 100, []⟩
          dataSourceCache := ⟨1800, 100, []⟩
          stats := ⟨0, 0, 0⟩ }
        ['a'] ResourceType.block 0).blocksCache.getAt ((['b'] : Str) ++ ':' :: ['5', '0']) 0
        = some 2 :=
  ⟨rfl, by decide,
   (composite_key_matching_amended cfgN _ ['a'] ['b'] 1 2 0 ResourceType.block rfl
      (Or.inl rfl) (by decide)
      (fun s h => by cases h)
      (fun s h => by cases h)
      (by decide) (by decide)).2.1,
   (composite_key_matching_amended cfgN _ ['a'] ['b'] 1 2 0 ResourceType.block rfl
      (Or.inl rfl) (by decide)
      (fun s h => by cases h)
      (fun s h => by cases h)
      (by decide) (by decide)).2.2⟩

/-- C5 (amended) — error atomicity for the caches and the invalidations
counter: any operation whose remote call fails leaves all four caches and
the `invalidations` counter exactly as they were, performs no cache
population and no invalidation, and leaves `hits` unchanged; the only
trace is that a failed read (with caching enabled) has already recorded
its cache miss, so `misses` grows by one there (and is unchanged for
writes and for disabled caching). -/
theorem error_atomicity_amended {V : Type} (cfg : Config) (st : ClientState V)
    (op : Op V) (e : RaisedError) (h : (step cfg st op).1 = Result.error e) :
    (step cfg st op).2.1.pageCache = st.pageCache
    ∧ (step cfg st op).2.1.blocksCache = st.blocksCache
    ∧ (step cfg st op).2.1.dbCache = st.dbCache
    ∧ (step cfg st op).2.1.dataSourceCache = st.dataSourceCache
    ∧ (step cfg st op).2.1.stats.invalidations = st.stats.invalidations
    ∧ (step cfg st op).2.1.stats.hits = st.stats.hits
    ∧ (step cfg st op).2.1.stats.misses
        = st.stats.misses + (if isRead op && cfg.enableCaching then 1 else 0) := by
  have hread : ∀ (kind : CacheKind) (key : Str) (remote : RemoteOutcome V) (now : Nat),
      (read_through cfg st kind key remote now).1 = Result.error e →
      (read_through cfg st kind key remote now).2.1
        = if cfg.enableCaching
          then { st with stats := { st.stats with misses := st.stats.misses + 1 } }
          else st := by
    intro kind key remote now h1
    cases hen : cfg.enableCaching with
    | true =>
      rw [if_pos rfl]
      cases hget : (st.cacheOf kind).getAt key now with
      | some v =>
        rw [read_through_eq_hit hen remote hget] at h1
        simp at h1
      | none =>
        cases hr : run_request remote with
        | ok v =>
          rw [read_through_eq_miss_ok hen hget hr] at h1
          simp at h1
        | error e2 =>
          rw [read_through_eq_miss_error hen hget hr]
    | false =>
      rw [if_neg (by simp)]
      cases hr : run_request remote with
      | ok v =>
        rw [read_through_disabled_ok hen hr] at h1
        simp at h1
      | error e2 =>
        rw [read_through_disabled_error hen hr]
  have hwrite : ∀ (id : Str) (remote : RemoteOutcome V) (now : Nat),
      (write_through_all cfg st id remote now).1 = Result.error e →
      (write_through_all cfg st id remote now).2.1 = st := by
    intro id remote now h1
    cases hr : run_request remote with
    | ok v =>
      rw [write_through_all_eq_ok hr] at h1
      simp at h1
    | error e2 => rw [write_through_all_eq_error hr]
  have hds : ∀ (id : Str) (pdb : Option Str) (remote : RemoteOutcome V) (now : Nat),
      (update_data_source cfg st id pdb remote now).1 = Result.error e →
      (update_data_source cfg st id pdb remote now).2.1 = st := by
    intro id pdb remote now h1
    cases hr : run_request remote with
    | ok v =>
      rw [update_data_source_eq_ok hr] at h1
      simp at h1
    | error e2 => rw [update_data_source_eq_error hr]
  cases op with
  | getPage id remote now =>
    rw [show (step cfg st (Op.getPage id remote now)).2.1
        = (read_through cfg st CacheKind.pages id remote now).2.1 from rfl,
      hread CacheKind.pages id remote now h]
    cases hen : cfg.enableCaching <;> simp [isRead]
  | getDatabase id remote now =>
    rw [show (step cfg st (Op.getDatabase id remote now)).2.1
        = (read_through cfg st CacheKind.databases id remote now).2.1 from rfl,
      hread CacheKind.databases id remote now h]
    cases hen : cfg.enableCaching <;> simp [isRead]
  | getDataSource id remote now =>
    rw [show (step cfg st (Op.getDataSource id remote now)).2.1
        = (read_through cfg st CacheKind.dataSources id remote now).2.1 from rfl,
      hread CacheKind.dataSources id remote now h]
    cases hen : cfg.enableCaching <;> simp [isRead]
  | getBlockChildren id ps remote now =>
    rw [show (step cfg st (Op.getBlockChildren id ps remote now)).2.1
        = (read_through cfg st CacheKind.blocks (blockChildrenKey id ps) remote now).2.1
        from rfl,
      hread CacheKind.blocks (blockChildrenKey id ps) remote now h]
    cases hen : cfg.enableCaching <;> simp [isRead]
  | updatePage id remote now =>
    rw [show (step cfg st (Op.updatePage id remote now)).2.1
        = (write_through_all cfg st id remote now).2.1 from rfl,
      hwrite id remote now h]
    simp [isRead]
  | updateDatabase id remote now =>
    rw [show (step cfg st (Op.updateDatabase id remote now)).2.1
        = (write_through_all cfg st id remote now).2.1 from rfl,
      hwrite id remote now h]
    simp [isRead]
  | updateDataSource id pdb remote now =>
    rw [show (step cfg st (Op.updateDataSource id pdb remote now)).2.1
        = (update_data_source cfg st id pdb remote now).2.1 from rfl,
      hds id pdb remote now h]
    simp [isRead]
  | updateBlock id remote now =>
    rw [show (step cfg st (Op.updateBlock id remote now)).2.1
        = (write_through_all cfg st id remote now).2.1 from rfl,
      hwrite id remote now h]
    simp [isRead]
  | deleteBlock id remote now =>
    rw [show (step cfg st (Op.deleteBlock id remote now)).2.1
        = (write_through_all cfg st id remote now).2.1 from rfl,
      hwrite id remote now h]
    simp [isRead]
  | appendBlockChildren id remote now =>
    rw [show (step cfg st (Op.appendBlockChildren id remote now)).2.1
        = (write_through_all cfg st id remote now).2.1 from rfl,
      hwrite id remote now h]
    simp [isRead]

/-- C5 witness: the amended atomicity statement applied to an
`update_page` whose transport timed out. -/
theorem error_atomicity_amended_witness :
    (step cfgN st0N (Op.updatePage ['p'] RemoteOutcome.timeout 0)).1
        = Result.error ⟨ErrorKind.apiError, none⟩
    ∧ ((step cfgN st0N (Op.updatePage ['p'] RemoteOutcome.timeout 0)).2.1.pageCache
          = st0N.pageCache
      ∧ (step cfgN st0N (Op.updatePage ['p'] RemoteOutcome.timeout 0)).2.1.blocksCache
          = st0N.blocksCache
      ∧ (step cfgN st0N (Op.updatePage ['p'] RemoteOutcome.timeout 0)).2.1.dbCache
          = st0N.dbCache
      ∧ (step cfgN st0N (Op.updatePage ['p'] RemoteOutcome.timeout 0)).2.1.dataSourceCache
          = st0N.dataSourceCache
      ∧ (step cfgN st0N (Op.updatePage ['p'] RemoteOutcome.timeout 0)).2.1.stats.invalidations
          = st0N.stats.invalidations
      ∧ (step cfgN st0N (Op.updatePage ['p'] RemoteOutcome.timeout 0)).2.1.stats.hits
          = st0N.stats.hits
      ∧ (step cfgN st0N (Op.updatePage ['p'] RemoteOutcome.timeout 0)).2.1.stats.misses
          = st0N.stats.misses
            + (if isRead (Op.updatePage ['p'] RemoteOutcome.timeout 0 : Op Nat)
                  && cfgN.enableCaching
               then 1 else 0)) :=
  ⟨by decide,
   error_atomicity_amended cfgN st0N (Op.updatePage ['p'] RemoteOutcome.timeout 0)
     ⟨ErrorKind.apiError, none⟩ (by decide)⟩

/-- C6 — with caching enabled, `_invalidate_cache` increments the
`invalidations` counter by exactly one when the call deleted at least one
entry somewhere (equivalently: some cache changed — the router only ever
deletes), and leaves the counter unchanged when it deleted nothing. -/
theorem invalidations_counter {V : Type} [DecidableEq V] (cfg : Config)
    (st : ClientState V) (rid : Str) (rt : ResourceType) (now : Nat)
    (hen : cfg.enableCaching = true) :
    (invalidate_cache cfg st rid rt now).stats.invalidations
      = st.stats.invalidations
        + (if (invalidate_cache cfg st rid rt now).pageCache ≠ st.pageCache
             ∨ (invalidate_cache cfg st rid rt now).blocksCache ≠ st.blocksCache
             ∨ (invalidate_cache cfg st rid rt now).dbCache ≠ st.dbCache
             ∨ (invalidate_cache cfg st rid rt now).dataSourceCache ≠ st.dataSourceCache
           then 1 else 0) := by
  have hpc := invalidate_cache_pageCache hen st rid rt now
  have hbc := invalidate_cache_blocksCache hen st rid rt now
  have hdbc := invalidate_cache_dbCache hen st rid rt now
  have hdsc := invalidate_cache_dataSourceCache hen st rid rt now
  have hstats := invalidate_cache_stats hen st rid rt now
  have hpIff : ((invalidate_cache cfg st rid rt now).pageCache ≠ st.pageCache)
      ↔ pageHitOf st rid rt now = true := by
    rw [hpc]
    cases hpH : pageHitOf st rid rt now with
    | true =>
      rw [if_pos rfl]
      have hcont : st.pageCache.containsAt rid now = true := by
        unfold pageHitOf at hpH
        simp only [Bool.and_eq_true] at hpH
        exact hpH.2
      exact iff_of_true (TTLCache.eraseKey_ne_of_containsAt hcont) rfl
    | false =>
      rw [if_neg (by simp)]
      simp
  have hbIff : ((invalidate_cache cfg st rid rt now).blocksCache ≠ st.blocksCache)
      ↔ blockKeysToDelete st rid rt now ≠ [] := by
    rw [hbc]
    cases hkd : blockKeysToDelete st rid rt now with
    | nil => simp
    | cons k0 rest =>
      have hchanged : (k0 :: rest).foldl TTLCache.eraseKey st.blocksCache
          ≠ st.blocksCache := by
        apply TTLCache.foldl_eraseKey_ne_of_liveKeys (by simp)
        intro k hk
        have hmem : k ∈ blockKeysToDelete st rid rt now := by
          rw [hkd]
          exact hk
        exact blockKeysToDelete_subset_liveKeys k hmem
      exact iff_of_true hchanged (by simp)
  have hdbIff : ((invalidate_cache cfg st rid rt now).dbCache ≠ st.dbCache)
      ↔ dbHitOf st rid rt now = true := by
    rw [hdbc]
    cases hpH : dbHitOf st rid rt now with
    | true =>
      rw [if_pos rfl]
      have hcont : st.dbCache.containsAt rid now = true := by
        unfold dbHitOf at hpH
        simp only [Bool.and_eq_true] at hpH
        exact hpH.2
      exact iff_of_true (TTLCache.eraseKey_ne_of_containsAt hcont) rfl
    | false =>
      rw [if_neg (by simp)]
      simp
  have hdsIff : ((invalidate_cache cfg st rid rt now).dataSourceCache
        ≠ st.dataSourceCache)
      ↔ dsHitOf st rid rt now = true := by
    rw [hdsc]
    cases hpH : dsHitOf st rid rt now with
    | true =>
      rw [if_pos rfl]
      have hcont : st.dataSourceCache.containsAt rid now = true := by
        unfold dsHitOf at hpH
        simp only [Bool.and_eq_true] at hpH
        exact hpH.2
      exact iff_of_true (TTLCache.eraseKey_ne_of_containsAt hcont) rfl
    | false =>
      rw [if_neg (by simp)]
      simp
  rw [hstats]
  by_cases hI : ((invalidate_cache cfg st rid rt now).pageCache ≠ st.pageCache
      ∨ (invalidate_cache cfg st rid rt now).blocksCache ≠ st.blocksCache
      ∨ (invalidate_cache cfg st rid rt now).dbCache ≠ st.dbCache
      ∨ (invalidate_cache cfg st rid rt now).dataSourceCache ≠ st.dataSourceCache)
  · rw [if_pos hI]
    have hbig : (pageHitOf st rid rt now || !(blockKeysToDelete st rid rt now).isEmpty
        || dbHitOf st rid rt now || dsHitOf st rid rt now) = true := by
      rcases hI with h | h | h | h
      · simp [hpIff.mp h]
      · cases hkd : blockKeysToDelete st rid rt now with
        | nil => exact absurd hkd (hbIff.mp h)
        | cons k0 rest => simp [hkd]
      · simp [hdbIff.mp h]
      · simp [hdsIff.mp h]
    rw [if_pos hbig]
  · rw [if_neg hI]
    push_neg at hI
    obtain ⟨h1, h2, h3, h4⟩ := hI
    have hbig : (pageHitOf st rid rt now || !(blockKeysToDelete st rid rt now).isEmpty
        || dbHitOf st rid rt now || dsHitOf st rid rt now) = false := by
      have b1 : pageHitOf st rid rt now = false := by
        cases hb : pageHitOf st rid rt now
        · rfl
        · exact absurd (hpIff.mpr hb) (fun hne => hne h1)
      have b2 : (blockKeysToDelete st rid rt now).isEmpty = true := by
        cases hkd : blockKeysToDelete st rid rt now with
        | nil => rfl
        | cons k0 rest =>
          exact absurd h2 (hbIff.mpr (by rw [hkd]; simp))
      have b3 : dbHitOf st rid rt now = false := by
        cases hb : dbHitOf st rid rt now
        · rfl
        · exact absurd (hdbIff.mpr hb) (fun hne => hne h3)
      have b4 : dsHitOf st rid rt now = false := by
        cases hb : dsHitOf st rid rt now
        · rfl
        · exact absurd (hdsIff.mpr hb) (fun hne => hne h4)
      rw [b1, b2, b3, b4]
      rfl
    rw [if_neg (by simp [hbig])]
    simp

/-- C6 witness: invalidating the cached id `"p"` in `stAlias` with scope
`all` deletes entries, so the counter goes from 0 to 1 (and the `if`
evaluates accordingly). -/
theorem invalidations_counter_witness :
    cfgN.enableCaching = true
    ∧ (invalidate_cache cfgN stAlias ['p'] ResourceType.all 0).stats.invalidations
        = stAlias.stats.invalidations
          + (if (invalidate_cache cfgN stAlias ['p'] ResourceType.all 0).pageCache
                 ≠ stAlias.pageCache
               ∨ (invalidate_cache cfgN stAlias ['p'] ResourceType.all 0).blocksCache
                 ≠ stAlias.blocksCache
               ∨ (invalidate_cache cfgN stAlias ['p'] ResourceType.all 0).dbCache
                 ≠ stAlias.dbCache
               ∨ (invalidate_cache cfgN stAlias ['p'] ResourceType.all 0).dataSourceCache
                 ≠ stAlias.dataSourceCache
             then 1 else 0) :=
  ⟨rfl, invalidations_counter cfgN stAlias ['p'] ResourceType.all 0 rfl⟩

/-- Putting one key into a cache where another key is absent leaves that
other key absent. -/
theorem TTLCache.getAt_putAt_ne_of_absent {c : TTLCache V} {k k' : Str} (hkk : k' ≠ k)
    (habs : TTLCache.findEntry k' c.entries = none) (v : V) (t now' : Nat) :
    (c.putAt k v t).getAt k' now' = none := by
  have hfil : TTLCache.findEntry k' (c.entries.filter (fun p => !decide (p.1 = k))) = none :=
    TTLCache.findEntry_none_of_subset (fun p hp => (List.mem_filter.mp hp).1) habs
  have hroom : TTLCache.findEntry k'
      (if (c.entries.filter (fun p => !decide (p.1 = k))).length + 1 ≤ c.maxSize
       then c.entries.filter (fun p => !decide (p.1 = k))
       else (c.entries.filter (fun p => !decide (p.1 = k))).drop
         ((c.entries.filter (fun p => !decide (p.1 = k))).length + 1 - c.maxSize)) = none := by
    split
    · exact hfil
    · exact TTLCache.findEntry_none_of_subset (fun p hp => List.drop_subset _ _ hp) hfil
  have hkk' : ¬(k = k') := fun h => hkk h.symm
  unfold TTLCache.putAt TTLCache.getAt
  simp only []
  rw [TTLCache.findEntry_append_left_none hroom]
  simp [TTLCache.findEntry, hkk']

/-- C7 — hit/miss accounting: with caching enabled, every
`_get_from_cache` call bumps `hits` exactly when the key is live and
`misses` otherwise (always exactly one of the two), and over any
operation sequence `hits + misses` equals the number of
`_get_from_cache` calls performed since construction (one per read
operation, none per write). -/
theorem hit_miss_accounting {V : Type} (cfg : Config) (hen : cfg.enableCaching = true) :
    (∀ (st : ClientState V) (kind : CacheKind) (key : Str) (now : Nat),
      (get_from_cache cfg st kind key now).2.stats.hits
          = st.stats.hits + (if (st.cacheOf kind).containsAt key now then 1 else 0)
      ∧ (get_from_cache cfg st kind key now).2.stats.misses
          = st.stats.misses + (if (st.cacheOf kind).containsAt key now then 0 else 1)
      ∧ (get_from_cache cfg st kind key now).1.isSome
          = (st.cacheOf kind).containsAt key now)
    ∧ ∀ (st : ClientState V) (ops : List (Op V)),
        (runOps cfg st ops).stats.hits + (runOps cfg st ops).stats.misses
          = st.stats.hits + st.stats.misses + countReads ops := by
  constructor
  · intro st kind key now
    have h := get_from_cache_stats_enabled hen st kind key now
    exact ⟨h.1, h.2.1, h.2.2.2⟩
  · intro st ops
    exact runOps_hm hen ops st

/-- C7 witness: the accounting statement applied to a fresh state, one
lookup and a two-operation sequence (one read, one write). -/
theorem hit_miss_accounting_witness :
    cfgN.enableCaching = true
    ∧ ((get_from_cache cfgN st0N CacheKind.pages ['p'] 0).2.stats.hits
        = st0N.stats.hits
          + (if (st0N.cacheOf CacheKind.pages).containsAt ['p'] 0 then 1 else 0))
    ∧ ((runOps cfgN st0N
          [Op.getPage ['p'] (RemoteOutcome.response 200 5) 0,
           Op.updatePage ['p'] (RemoteOutcome.response 200 6) 1]).stats.hits
        + (runOps cfgN st0N
          [Op.getPage ['p'] (RemoteOutcome.response 200 5) 0,
           Op.updatePage ['p'] (RemoteOutcome.response 200 6) 1]).stats.misses
        = st0N.stats.hits + st0N.stats.misses
          + countReads
            [Op.getPage ['p'] (RemoteOutcome.response 200 5) 0,
             Op.updatePage ['p'] (RemoteOutcome.response 200 6) 1]) :=
  ⟨rfl,
   ((hit_miss_accounting cfgN rfl).1 st0N CacheKind.pages ['p'] 0).1,
   (hit_miss_accounting cfgN rfl).2 st0N
     [Op.getPage ['p'] (RemoteOutcome.response 200 5) 0,
      Op.updatePage ['p'] (RemoteOutcome.response 200 6) 1]⟩

/-- C8 — TTL expiry: storing a value at `tIns` and querying its key once
the cache's configured TTL has elapsed is a miss (the expired value is
never returned, the `misses` counter records the miss), and the read
operation targeting that key performs a fresh remote call. -/
theorem ttl_expiry {V : Type} (cfg : Config) (st : ClientState V) (op : Op V)
    (kind : CacheKind) (key : Str) (v : V) (tIns : Nat)
    (hen : cfg.enableCaching = true)
    (hrt : readTarget op = some (kind, key))
    (hex : tIns + (st.cacheOf kind).ttl ≤ opNow op) :
    ((store_in_cache cfg st kind key v tIns).cacheOf kind).getAt key (opNow op) = none
    ∧ (get_from_cache cfg (store_in_cache cfg st kind key v tIns) kind key (opNow op)).1
        = none
    ∧ (get_from_cache cfg (store_in_cache cfg st kind key v tIns) kind key
          (opNow op)).2.stats.misses
        = (store_in_cache cfg st kind key v tIns).stats.misses + 1
    ∧ (step cfg (store_in_cache cfg st kind key v tIns) op).2.2 = true := by
  have hnone : ((store_in_cache cfg st kind key v tIns).cacheOf kind).getAt key (opNow op)
      = none := by
    rw [cacheOf_store_in_cache hen, TTLCache.getAt_putAt_self, if_neg (by omega)]
  refine ⟨hnone, ?_, ?_, ?_⟩
  · rw [get_from_cache_result hen, hnone]
  · have h := get_from_cache_stats_enabled hen (store_in_cache cfg st kind key v tIns)
      kind key (opNow op)
    rw [h.2.1]
    have hc : ((store_in_cache cfg st kind key v tIns).cacheOf kind).containsAt key
        (opNow op) = false := by
      unfold TTLCache.containsAt
      rw [hnone]
      rfl
    rw [hc]
    simp
  · cases op with
    | getPage id remote now =>
      simp only [readTarget, Option.some.injEq, Prod.mk.injEq] at hrt
      obtain ⟨hk, hkey⟩ := hrt
      subst hk
      subst hkey
      exact read_through_remote_of_miss hen remote hnone
    | getDatabase id remote now =>
      simp only [readTarget, Option.some.injEq, Prod.mk.injEq] at hrt
      obtain ⟨hk, hkey⟩ := hrt
      subst hk
      subst hkey
      exact read_through_remote_of_miss hen remote hnone
    | getDataSource id remote now =>
      simp only [readTarget, Option.some.injEq, Prod.mk.injEq] at hrt
      obtain ⟨hk, hkey⟩ := hrt
      subst hk
      subst hkey
      exact read_through_remote_of_miss hen remote hnone
    | getBlockChildren id ps remote now =>
      simp only [readTarget, Option.some.injEq, Prod.mk.injEq] at hrt
      obtain ⟨hk, hkey⟩ := hrt
      subst hk
      subst hkey
      exact read_through_remote_of_miss hen remote hnone
    | updatePage id remote now => simp [readTarget] at hrt
    | updateDatabase id remote now => simp [readTarget] at hrt
    | updateDataSource id pdb remote now => simp [readTarget] at hrt
    | updateBlock id remote now => simp [readTarget] at hrt
    | deleteBlock id remote now => simp [readTarget] at hrt
    | appendBlockChildren id remote now => simp [readTarget] at hrt

/-- C8 witness: a page stored at time 0 with the default 300-second TTL
and read at time 300. -/
theorem ttl_expiry_witness :
    cfgN.enableCaching = true
    ∧ readTarget (Op.getPage ['p'] (RemoteOutcome.response 200 5) 300 : Op Nat)
        = some (CacheKind.pages, ['p'])
    ∧ 0 + (st0N.cacheOf CacheKind.pages).ttl
        ≤ opNow (Op.getPage ['p'] (RemoteOutcome.response 200 5) 300 : Op Nat)
    ∧ (((store_in_cache cfgN st0N CacheKind.pages ['p'] 7 0).cacheOf CacheKind.pages).getAt
          ['p'] (opNow (Op.getPage ['p'] (RemoteOutcome.response 200 5) 300 : Op Nat))
        = none
      ∧ (get_from_cache cfgN (store_in_cache cfgN st0N CacheKind.pages ['p'] 7 0)
          CacheKind.pages ['p']
          (opNow (Op.getPage ['p'] (RemoteOutcome.response 200 5) 300 : Op Nat))).1 = none
      ∧ (get_from_cache cfgN (store_in_cache cfgN st0N CacheKind.pages ['p'] 7 0)
          CacheKind.pages ['p']
          (opNow (Op.getPage ['p']
            (RemoteOutcome.response 200 5) 300 : Op Nat))).2.stats.misses
        = (store_in_cache cfgN st0N CacheKind.pages ['p'] 7 0).stats.misses + 1
      ∧ (step cfgN (store_in_cache cfgN st0N CacheKind.pages ['p'] 7 0)
          (Op.getPage ['p'] (RemoteOutcome.response 200 5) 300)).2.2 = true) :=
  ⟨rfl, rfl, by decide,
   ttl_expiry cfgN st0N (Op.getPage ['p'] (RemoteOutcome.response 200 5) 300)
     CacheKind.pages ['p'] 7 0 rfl rfl (by decide)⟩

/-- C9 — disabled-cache no-op: with caching disabled, every cache get
reports a miss with no counter effect, every store / invalidation /
clear is a no-op, `get_cache_stats` returns exactly the
`{enabled: false}` record, every operation leaves the state untouched
(so repeated reads of the same id never find a cached value), and every
read performs a remote call. -/
theorem disabled_cache_noop {V : Type} (cfg : Config) (st : ClientState V)
    (kind : CacheKind) (key : Str) (v : V) (rid : Str) (rt : ResourceType)
    (ct : ClearType) (op : Op V) (now : Nat)
    (hdis : cfg.enableCaching = false) :
    get_from_cache cfg st kind key now = (none, st)
    ∧ store_in_cache cfg st kind key v now = st
    ∧ invalidate_cache cfg st rid rt now = st
    ∧ clear_cache cfg st ct = st
    ∧ get_cache_stats cfg st = CacheStatsView.disabled
    ∧ (step cfg st op).2.1 = st
    ∧ (isRead op = true → (step cfg st op).2.2 = true) := by
  have hclear : clear_cache cfg st ct = st := by
    unfold clear_cache
    rw [hdis]
    rfl
  have hstatsv : get_cache_stats cfg st = CacheStatsView.disabled := by
    unfold get_cache_stats
    rw [hdis]
    rfl
  have hread2 : ∀ (kind' : CacheKind) (key' : Str) (remote : RemoteOutcome V) (now' : Nat),
      (read_through cfg st kind' key' remote now').2.1 = st
      ∧ (read_through cfg st kind' key' remote now').2.2 = true := by
    intro kind' key' remote now'
    cases hr : run_request remote with
    | ok v' =>
      rw [read_through_disabled_ok hdis hr]
      exact ⟨rfl, rfl⟩
    | error e =>
      rw [read_through_disabled_error hdis hr]
      exact ⟨rfl, rfl⟩
  have hwrite2 : ∀ (id : Str) (remote : RemoteOutcome V) (now' : Nat),
      (write_through_all cfg st id remote now').2.1 = st := by
    intro id remote now'
    cases hr : run_request remote with
    | ok v' =>
      rw [write_through_all_eq_ok hr]
      exact invalidate_cache_disabled hdis st id ResourceType.all now'
    | error e => rw [write_through_all_eq_error hr]
  have hds2 : ∀ (id : Str) (pdb : Option Str) (remote : RemoteOutcome V) (now' : Nat),
      (update_data_source cfg st id pdb remote now').2.1 = st := by
    intro id pdb remote now'
    cases hr : run_request remote with
    | ok v' =>
      rw [update_data_source_eq_ok hr]
      cases pdb with
      | some dbId =>
        show invalidate_cache cfg
          (invalidate_cache cfg st id ResourceType.data_sources now')
          dbId ResourceType.databases now' = st
        rw [invalidate_cache_disabled hdis, invalidate_cache_disabled hdis]
      | none => exact invalidate_cache_disabled hdis st id ResourceType.data_sources now'
    | error e => rw [update_data_source_eq_error hr]
  refine ⟨get_from_cache_disabled hdis st kind key now,
    store_in_cache_disabled hdis st kind key v now,
    invalidate_cache_disabled hdis st rid rt now, hclear, hstatsv, ?_, ?_⟩
  · cases op with
    | getPage id remote now' => exact (hread2 CacheKind.pages id remote now').1
    | getDatabase id remote now' => exact (hread2 CacheKind.databases id remote now').1
    | getDataSource id remote now' => exact (hread2 CacheKind.dataSources id remote now').1
    | getBlockChildren id ps remote now' =>
      exact (hread2 CacheKind.blocks (blockChildrenKey id ps) remote now').1
    | updatePage id remote now' => exact hwrite2 id remote now'
    | updateDatabase id remote now' => exact hwrite2 id remote now'
    | updateDataSource id pdb remote now' => exact hds2 id pdb remote now'
    | updateBlock id remote now' => exact hwrite2 id remote now'
    | deleteBlock id remote now' => exact hwrite2 id remote now'
    | appendBlockChildren id remote now' => exact hwrite2 id remote now'
  · intro hro
    cases op with
    | getPage id remote now' => exact (hread2 CacheKind.pages id remote now').2
    | getDatabase id remote now' => exact (hread2 CacheKind.databases id remote now').2
    | getDataSource id remote now' => exact (hread2 CacheKind.dataSources id remote now').2
    | getBlockChildren id ps remote now' =>
      exact (hread2 CacheKind.blocks (blockChildrenKey id ps) remote now').2
    | updatePage id remote now' => exact absurd hro (by simp [isRead])
    | updateDatabase id remote now' => exact absurd hro (by simp [isRead])
    | updateDataSource id pdb remote now' => exact absurd hro (by simp [isRead])
    | updateBlock id remote now' => exact absurd hro (by simp [isRead])
    | deleteBlock id remote now' => exact absurd hro (by simp [isRead])
    | appendBlockChildren id remote now' => exact absurd hro (by simp [isRead])

/-- C9 witness: the no-op statement applied to a disabled-caching client
and one concrete read. -/
theorem disabled_cache_noop_witness :
    cfgDis.enableCaching = false
    ∧ get_from_cache cfgDis st0Dis CacheKind.pages ['p'] 0 = (none, st0Dis)
    ∧ get_cache_stats cfgDis st0Dis = CacheStatsView.disabled
    ∧ (step cfgDis st0Dis (Op.getPage ['p'] (RemoteOutcome.response 200 5) 0)).2.1 = st0Dis
    ∧ (step cfgDis st0Dis (Op.getPage ['p'] (RemoteOutcome.response 200 5) 0)).2.2 = true :=
  ⟨rfl,
   (disabled_cache_noop cfgDis st0Dis CacheKind.pages ['p'] 7 ['p'] ResourceType.all
      ClearType.all (Op.getPage ['p'] (RemoteOutcome.response 200 5) 0) 0 rfl).1,
   (disabled_cache_noop cfgDis st0Dis CacheKind.pages ['p'] 7 ['p'] ResourceType.all
      ClearType.all (Op.getPage ['p'] (RemoteOutcome.response 200 5) 0) 0 rfl).2.2.2.2.1,
   (disabled_cache_noop cfgDis st0Dis CacheKind.pages ['p'] 7 ['p'] ResourceType.all
      ClearType.all (Op.getPage ['p'] (RemoteOutcome.response 200 5) 0) 0 rfl).2.2.2.2.2.1,
   (disabled_cache_noop cfgDis st0Dis CacheKind.pages ['p'] 7 ['p'] ResourceType.all
      ClearType.all (Op.getPage ['p'] (RemoteOutcome.response 200 5) 0) 0 rfl).2.2.2.2.2.2
     rfl⟩

/-- C10 — implicit composite-key behavior of `get_block_children`: the
remote request is sent with `page_size` capped at 100, but the cache key
embeds the original uncapped `page_size`; hence two calls with distinct
page sizes above 100 use distinct cache keys, the first call's result is
cached under its uncapped key, and the second call performs its own
remote call even though both remote requests carry the same capped
`page_size = 100`. -/
theorem uncapped_page_size_composite_key {V : Type} (cfg : Config) (b : Str)
    (p1 p2 : Nat) (v1 : V) (r1 r2 : RemoteOutcome V) (now1 now2 : Nat)
    (hen : cfg.enableCaching = true)
    (httl : 0 < cfg.cacheTtlBlocks)
    (h1 : 100 < p1) (h2 : 100 < p2) (hne : p1 ≠ p2)
    (hr1 : run_request r1 = Result.ok v1) :
    blockChildrenKey b p1 ≠ blockChildrenKey b p2
    ∧ blockChildrenRequestPageSize p1 = 100
    ∧ blockChildrenRequestPageSize p2 = 100
    ∧ (get_block_children cfg (setup_cache V cfg) b p1 r1 now1).2.2 = true
    ∧ (get_block_children cfg (setup_cache V cfg) b p1 r1 now1).2.1.blocksCache.getAt
        (blockChildrenKey b p1) now1 = some v1
    ∧ (get_block_children cfg
        (get_block_children cfg (setup_cache V cfg) b p1 r1 now1).2.1
        b p2 r2 now2).2.2 = true := by
  have hkne : blockChildrenKey b p1 ≠ blockChildrenKey b p2 :=
    fun heq => hne (blockChildrenKey_inj heq)
  have hmiss1 : ((setup_cache V cfg).cacheOf CacheKind.blocks).getAt
      (blockChildrenKey b p1) now1 = none := rfl
  have hstep1 := read_through_eq_miss_ok hen hmiss1 hr1
  refine ⟨hkne, ?_, ?_, ?_, ?_, ?_⟩
  · unfold blockChildrenRequestPageSize
    omega
  · unfold blockChildrenRequestPageSize
    omega
  · show (read_through cfg (setup_cache V cfg) CacheKind.blocks (blockChildrenKey b p1)
        r1 now1).2.2 = true
    rw [hstep1]
  · show (read_through cfg (setup_cache V cfg) CacheKind.blocks (blockChildrenKey b p1)
        r1 now1).2.1.blocksCache.getAt (blockChildrenKey b p1) now1 = some v1
    rw [hstep1]
    show ((store_in_cache cfg
        { setup_cache V cfg with
          stats := { (setup_cache V cfg).stats with
            misses := (setup_cache V cfg).stats.misses + 1 } }
        CacheKind.blocks (blockChildrenKey b p1) v1 now1).cacheOf CacheKind.blocks).getAt
        (blockChildrenKey b p1) now1 = some v1
    rw [cacheOf_store_in_cache hen, TTLCache.getAt_putAt_self]
    split
    · rfl
    · next hcon => exact absurd (Nat.lt_add_of_pos_right (show 0 < _ from httl)) hcon
  · apply read_through_remote_of_miss hen r2
    show ((read_through cfg (setup_cache V cfg) CacheKind.blocks (blockChildrenKey b p1)
        r1 now1).2.1.cacheOf CacheKind.blocks).getAt (blockChildrenKey b p2) now2 = none
    rw [hstep1]
    show ((store_in_cache cfg
        { setup_cache V cfg with
          stats := { (setup_cache V cfg).stats with
            misses := (setup_cache V cfg).stats.misses + 1 } }
        CacheKind.blocks (blockChildrenKey b p1) v1 now1).cacheOf CacheKind.blocks).getAt
        (blockChildrenKey b p2) now2 = none
    rw [cacheOf_store_in_cache hen]
    refine TTLCache.getAt_putAt_ne_of_absent (fun h => hkne h.symm) ?_ v1 now1 now2
    rfl

/-- C10 witness: page sizes 150 and 200 against a fresh client. -/
theorem uncapped_page_size_composite_key_witness :
    cfgN.enableCaching = true ∧ 0 < cfgN.cacheTtlBlocks
    ∧ 100 < 150 ∧ 100 < 200 ∧ (150 : Nat) ≠ 200
    ∧ run_request (RemoteOutcome.response 200 (1 : Nat)) = Result.ok 1
    ∧ (blockChildrenKey ['b'] 150 ≠ blockChildrenKey ['b'] 200
      ∧ blockChildrenRequestPageSize 150 = 100
      ∧ blockChildrenRequestPageSize 200 = 100
      ∧ (get_block_children cfgN (setup_cache Nat cfgN) ['b'] 150
          (RemoteOutcome.response 200 1) 0).2.2 = true
      ∧ (get_block_children cfgN (setup_cache Nat cfgN) ['b'] 150
          (RemoteOutcome.response 200 1) 0).2.1.blocksCache.getAt
          (blockChildrenKey ['b'] 150) 0 = some 1
      ∧ (get_block_children cfgN
          (get_block_children cfgN (setup_cache Nat cfgN) ['b'] 150
            (RemoteOutcome.response 200 1) 0).2.1
          ['b'] 200 (RemoteOutcome.response 200 2) 0).2.2 = true) :=
  ⟨rfl, by decide, by decide, by decide, by decide, by decide,
   uncapped_page_size_composite_key cfgN ['b'] 150 200 1
     (RemoteOutcome.response 200 1) (RemoteOutcome.response 200 2) 0 0
     rfl (by decide) (by decide) (by decide) (by decide) (by decide)⟩

end Notion
